import Mathlib

/-!
Shallow embedding of `src/generateNovel.js` (OllamaAuthor).

Strings are modelled as `List Char`.  The text-generation service is an
oracle (`Env.responses`) indexed by the call counter, so a stateful service
that answers the same prompt differently on a retry is representable.
`JSON.parse` is a platform function, modelled as the oracle `Env.jsonParse`.
The unbounded retry recursion in `writeChapter` is embedded with a fuel
parameter; running out of fuel is a distinguished error that corresponds to
the real code never returning.
-/

namespace OllamaAuthor

/-- JS whitespace (the characters of the `\s` class / `trim` relevant here,
ASCII range). -/
def jsWs (c : Char) : Bool :=
  c == ' ' || c == '\t' || c == '\n' || c == '\r' || c == '\x0b' || c == '\x0c'

/-- Drop leading whitespace. -/
def trimL (s : List Char) : List Char := s.dropWhile jsWs

/-- Drop trailing whitespace. -/
def trimR (s : List Char) : List Char := (s.reverse.dropWhile jsWs).reverse

/-- Model of `String.prototype.trim`. -/
def trimStr (s : List Char) : List Char := trimR (trimL s)

/-- First occurrence of `pat` in `s`: the text strictly before it and the
text strictly after it. -/
def splitFirst (pat : List Char) : List Char → Option (List Char × List Char)
  | [] => if pat.isPrefixOf ([] : List Char) then some ([], []) else none
  | c :: cs =>
    if pat.isPrefixOf (c :: cs) then some ([], (c :: cs).drop pat.length)
    else (splitFirst pat cs).map (fun ab => (c :: ab.1, ab.2))

/-- `pat` occurs nowhere in `s` as a contiguous subsequence. -/
def NoOcc (pat s : List Char) : Prop := ∀ x y : List Char, s ≠ x ++ pat ++ y

theorem isPrefixOf_iff_exists {pat s : List Char} :
    pat.isPrefixOf s = true ↔ ∃ t, s = pat ++ t := by
  induction pat generalizing s with
  | nil => simp [List.isPrefixOf]
  | cons a as ih =>
    cases s with
    | nil => simp [List.isPrefixOf]
    | cons b bs =>
      simp only [List.isPrefixOf, Bool.and_eq_true, beq_iff_eq, ih]
      constructor
      · rintro ⟨rfl, t, rfl⟩; exact ⟨t, rfl⟩
      · rintro ⟨t, ht⟩
        injection ht with h1 h2
        exact ⟨h1.symm, t, h2⟩

theorem splitFirst_some_eq {pat s a b : List Char}
    (h : splitFirst pat s = some (a, b)) : s = a ++ pat ++ b := by
  induction s generalizing a b with
  | nil =>
    simp only [splitFirst] at h
    by_cases hp : pat.isPrefixOf ([] : List Char) = true
    · rw [if_pos hp] at h
      rcases isPrefixOf_iff_exists.mp hp with ⟨t, ht⟩
      rcases List.append_eq_nil.mp ht.symm with ⟨h1, h2⟩
      injection h with h
      injection h with ha hb
      subst ha; subst hb; simp [h1]
    · rw [if_neg hp] at h; exact absurd h (by simp)
  | cons c cs ih =>
    simp only [splitFirst] at h
    by_cases hp : pat.isPrefixOf (c :: cs) = true
    · rw [if_pos hp] at h
      rcases isPrefixOf_iff_exists.mp hp with ⟨t, ht⟩
      injection h with h
      injection h with ha hb
      subst ha; subst hb
      rw [ht]
      simp [List.drop_left]
    · rw [if_neg hp] at h
      cases hr : splitFirst pat cs with
      | none => rw [hr] at h; exact absurd h (by simp)
      | some ab =>
        rw [hr] at h
        simp only [Option.map_some'] at h
        injection h with h
        have := ih (a := ab.1) (b := ab.2) (by rw [hr])
        injection h with ha hb
        subst ha; subst hb
        simp [this]

theorem splitFirst_self_append {pat : List Char} (b : List Char) (h : pat ≠ []) :
    splitFirst pat (pat ++ b) = some ([], b) := by
  cases pat with
  | nil => exact absurd rfl h
  | cons p ps =>
    have hp : (p :: ps).isPrefixOf (p :: (ps ++ b)) = true :=
      isPrefixOf_iff_exists.mpr ⟨b, by simp⟩
    show splitFirst (p :: ps) (p :: (ps ++ b)) = some ([], b)
    simp only [splitFirst, hp, if_true, List.length_cons, List.drop_succ_cons]
    rw [List.drop_left]

theorem splitFirst_append {pat : List Char} {hd : Char} {pt a b : List Char}
    (hpat : pat = hd :: pt) (ha : hd ∉ a) :
    splitFirst pat (a ++ pat ++ b) = some (a, b) := by
  induction a with
  | nil =>
    rw [List.nil_append]
    exact splitFirst_self_append b (by simp [hpat])
  | cons x xs ih =>
    have hx : x ≠ hd := fun hxe => ha (by simp [hxe])
    have hxs : hd ∉ xs := fun hmem => ha (by simp [hmem])
    have hnp : pat.isPrefixOf (x :: (xs ++ pat ++ b)) = false := by
      rw [Bool.eq_false_iff]
      intro hcon
      rcases isPrefixOf_iff_exists.mp hcon with ⟨t, ht⟩
      rw [hpat] at ht
      injection ht with h1 _
      exact hx h1
    have hstep : (x :: xs) ++ pat ++ b = x :: (xs ++ pat ++ b) := by simp
    rw [hstep]
    show splitFirst pat (x :: (xs ++ pat ++ b)) = some (x :: xs, b)
    simp only [splitFirst, hnp]
    rw [if_neg (by simp), ih hxs]
    simp

theorem splitFirst_none_of_noOcc {pat s : List Char} (h : NoOcc pat s) :
    splitFirst pat s = none := by
  induction s with
  | nil =>
    simp only [splitFirst]
    rw [if_neg]
    intro hp
    rcases isPrefixOf_iff_exists.mp hp with ⟨t, ht⟩
    exact h [] t (by simpa using ht)
  | cons c cs ih =>
    simp only [splitFirst]
    rw [if_neg, ih]
    · rfl
    · intro x y hxy
      exact h (c :: x) y (by simp [hxy])
    · intro hp
      rcases isPrefixOf_iff_exists.mp hp with ⟨t, ht⟩
      exact h [] t (by simpa using ht)

theorem noOcc_of_splitFirst_none {pat s : List Char}
    (h : splitFirst pat s = none) : NoOcc pat s := by
  induction s with
  | nil =>
    intro x y hxy
    simp only [splitFirst] at h
    rcases List.append_eq_nil.mp (List.append_eq_nil.mp hxy.symm).1 with ⟨_, h2⟩
    rw [if_pos (isPrefixOf_iff_exists.mpr ⟨[], by simp [h2]⟩)] at h
    exact absurd h (by simp)
  | cons c cs ih =>
    simp only [splitFirst] at h
    by_cases hp : pat.isPrefixOf (c :: cs) = true
    · rw [if_pos hp] at h; exact absurd h (by simp)
    · rw [if_neg hp] at h
      cases hr : splitFirst pat cs with
      | some ab => rw [hr] at h; exact absurd h (by simp)
      | none =>
        intro x y hxy
        cases x with
        | nil =>
          exact hp (isPrefixOf_iff_exists.mpr ⟨y, by simpa using hxy⟩)
        | cons x0 xt =>
          injection hxy with _ h2
          exact (ih hr) xt y h2

theorem noOcc_iff_splitFirst_none {pat s : List Char} :
    NoOcc pat s ↔ splitFirst pat s = none :=
  ⟨splitFirst_none_of_noOcc, noOcc_of_splitFirst_none⟩

theorem splitFirst_some_noOcc_left {pat s a b : List Char} (hpat : pat ≠ [])
    (h : splitFirst pat s = some (a, b)) : NoOcc pat a := by
  induction s generalizing a b with
  | nil =>
    simp only [splitFirst] at h
    by_cases hp : pat.isPrefixOf ([] : List Char) = true
    · rw [if_pos hp] at h
      injection h with h
      injection h with ha _
      subst ha
      intro x y hxy
      rcases List.append_eq_nil.mp (List.append_eq_nil.mp hxy.symm).1 with ⟨_, h2⟩
      exact hpat h2
    · rw [if_neg hp] at h; exact absurd h (by simp)
  | cons c cs ih =>
    simp only [splitFirst] at h
    by_cases hp : pat.isPrefixOf (c :: cs) = true
    · rw [if_pos hp] at h
      injection h with h
      injection h with ha _
      subst ha
      intro x y hxy
      rcases List.append_eq_nil.mp (List.append_eq_nil.mp hxy.symm).1 with ⟨_, h2⟩
      exact hpat h2
    · rw [if_neg hp] at h
      cases hr : splitFirst pat cs with
      | none => rw [hr] at h; exact absurd h (by simp)
      | some ab =>
        rw [hr] at h
        simp only [Option.map_some'] at h
        injection h with h
        injection h with ha hb
        intro x y hxy
        have hs : cs = ab.1 ++ pat ++ ab.2 := splitFirst_some_eq hr
        cases x with
        | nil =>
          simp only [List.nil_append] at hxy
          apply hp
          apply isPrefixOf_iff_exists.mpr
          refine ⟨y ++ (pat ++ ab.2), ?_⟩
          calc c :: cs = (c :: ab.1) ++ (pat ++ ab.2) := by simp [hs]
            _ = (pat ++ y) ++ (pat ++ ab.2) := by rw [ha, hxy]
            _ = pat ++ (y ++ (pat ++ ab.2)) := by simp
        | cons x0 xt =>
          have h3 : c :: ab.1 = x0 :: (xt ++ pat ++ y) := by
            rw [ha, hxy]; simp
          injection h3 with _ h4
          exact (ih hr) xt y h4

theorem noOcc_of_not_mem {pat s : List Char} {c : Char} (hc : c ∈ pat)
    (h : c ∉ s) : NoOcc pat s := by
  intro x y hxy
  exact h (by rw [hxy]; simp [hc])

theorem noOcc_sub {pat p t q : List Char} (h : NoOcc pat (p ++ t ++ q)) :
    NoOcc pat t := by
  intro x y hxy
  exact h (p ++ x) (y ++ q) (by rw [hxy]; simp)

/-- Remove the first occurrence of `pat` from `s` (JS
`String.prototype.replace` with a string pattern and empty replacement). -/
def removeFirst (pat s : List Char) : List Char :=
  match splitFirst pat s with
  | none => s
  | some (a, b) => a ++ b

theorem splitFirst_length {pat s a b : List Char} (hpat : pat ≠ [])
    (h : splitFirst pat s = some (a, b)) : b.length < s.length := by
  have := splitFirst_some_eq h
  have hl : 0 < pat.length := List.length_pos.mpr hpat
  rw [this]
  simp [List.length_append]
  omega

/-- `<think>` opening delimiter. -/
def openTag : List Char := "<think>".data

/-- `</think>` closing delimiter. -/
def closeTag : List Char := "</think>".data

theorem openTag_ne_nil : openTag ≠ [] := by decide

theorem closeTag_ne_nil : closeTag ≠ [] := by decide

/-- Recursion worker for `execMatches`; the fuel only bounds the number of
iterations (each found match consumes at least the two delimiters, so
`s.length` units of fuel always suffice). -/
def execMatchesAux : Nat → List Char → List (List Char)
  | 0, _ => []
  | fuel + 1, s =>
    match splitFirst openTag s with
    | none => []
    | some (_, rest1) =>
      match splitFirst closeTag rest1 with
      | none => []
      | some (mid, rest2) => (openTag ++ mid ++ closeTag) :: execMatchesAux fuel rest2

/-- The successive matches of the global regex `/<think>([\s\S]*?)<\/think>/g`
on `s`: each match is the full matched text, delimiters included, and the
search resumes after the end of the previous match (JS `RegExp.exec` with the
`g` flag). -/
def execMatches (s : List Char) : List (List Char) :=
  execMatchesAux s.length s

theorem splitFirst_nil_of_ne {pat : List Char} (h : pat ≠ []) :
    splitFirst pat [] = none := by
  cases pat with
  | nil => exact absurd rfl h
  | cons p ps => simp [splitFirst, List.isPrefixOf]

theorem execMatchesAux_congr : ∀ (f g : Nat) (s : List Char),
    s.length ≤ f → s.length ≤ g → execMatchesAux f s = execMatchesAux g s := by
  intro f
  induction f with
  | zero =>
    intro g s hf _
    have : s = [] := List.length_eq_zero.mp (Nat.le_zero.mp hf)
    subst this
    cases g with
    | zero => rfl
    | succ g => simp [execMatchesAux, splitFirst_nil_of_ne openTag_ne_nil]
  | succ f ih =>
    intro g s hf hg
    cases g with
    | zero =>
      have : s = [] := List.length_eq_zero.mp (Nat.le_zero.mp hg)
      subst this
      simp [execMatchesAux, splitFirst_nil_of_ne openTag_ne_nil]
    | succ g =>
      simp only [execMatchesAux]
      cases h1 : splitFirst openTag s with
      | none => rfl
      | some p1 =>
        obtain ⟨a1, b1⟩ := p1
        show (match splitFirst closeTag b1 with
          | none => []
          | some (mid, rest2) => (openTag ++ mid ++ closeTag) :: execMatchesAux f rest2) =
          (match splitFirst closeTag b1 with
          | none => []
          | some (mid, rest2) => (openTag ++ mid ++ closeTag) :: execMatchesAux g rest2)
        cases h2 : splitFirst closeTag b1 with
        | none => rfl
        | some p2 =>
          obtain ⟨m2, r2⟩ := p2
          have l1 := splitFirst_length openTag_ne_nil h1
          have l2 := splitFirst_length closeTag_ne_nil h2
          show (openTag ++ m2 ++ closeTag) :: execMatchesAux f r2 =
            (openTag ++ m2 ++ closeTag) :: execMatchesAux g r2
          rw [ih g r2 (by omega) (by omega)]

/-- `parseOllamaResponse` (src/generateNovel.js:34-53): finds every
`<think>...</think>` block with a global regex over the original response,
removes each matched text from the running cleaned string by
first-occurrence string replacement, and trims the result. -/
def parseOllamaResponse (response : List Char) : List Char :=
  trimStr ((execMatches response).foldl (fun acc m => removeFirst m acc) response)

theorem dropWhile_head_false {p : Char → Bool} {l : List Char} {c : Char}
    (h : (l.dropWhile p).head? = some c) : p c = false := by
  induction l with
  | nil => simp [List.dropWhile] at h
  | cons a l ih =>
    by_cases hp : p a = true
    · rw [List.dropWhile_cons_of_pos hp] at h; exact ih h
    · rw [List.dropWhile_cons_of_neg hp] at h
      injection h with h
      subst h
      exact Bool.eq_false_iff.mpr hp

theorem dropWhile_eq_self_of_head {p : Char → Bool} {l : List Char}
    (h : ∀ c, l.head? = some c → p c = false) : l.dropWhile p = l := by
  cases l with
  | nil => rfl
  | cons a l =>
    rw [List.dropWhile_cons_of_neg]
    simp [h a rfl]

theorem dropWhile_idem (p : Char → Bool) (l : List Char) :
    (l.dropWhile p).dropWhile p = l.dropWhile p :=
  dropWhile_eq_self_of_head (fun _ hc => dropWhile_head_false hc)

theorem dropWhile_append_of_all {p : Char → Bool} {a : List Char}
    (b : List Char) (h : ∀ c ∈ a, p c = true) :
    (a ++ b).dropWhile p = b.dropWhile p := by
  induction a with
  | nil => rfl
  | cons x xs ih =>
    rw [List.cons_append, List.dropWhile_cons_of_pos (h x (by simp))]
    exact ih (fun c hc => h c (by simp [hc]))

theorem head?_append_left {l t : List Char} (h : l ≠ []) :
    (l ++ t).head? = l.head? := by
  cases l with
  | nil => exact absurd rfl h
  | cons a l => rfl

theorem trimR_eq_append (s : List Char) :
    ∃ w, (∀ c ∈ w, jsWs c = true) ∧ s = trimR s ++ w := by
  refine ⟨(s.reverse.takeWhile jsWs).reverse, ?_, ?_⟩
  · intro c hc
    exact List.mem_takeWhile_imp (List.mem_reverse.mp hc)
  · rw [trimR, ← List.reverse_append, List.takeWhile_append_dropWhile,
      List.reverse_reverse]

theorem trimL_eq_append (s : List Char) :
    ∃ w, (∀ c ∈ w, jsWs c = true) ∧ s = w ++ trimL s := by
  refine ⟨s.takeWhile jsWs, ?_, ?_⟩
  · intro c hc
    exact List.mem_takeWhile_imp hc
  · rw [trimL, List.takeWhile_append_dropWhile]

theorem head?_trimR {s : List Char} (h : trimR s ≠ []) :
    (trimR s).head? = s.head? := by
  rcases trimR_eq_append s with ⟨w, _, hw⟩
  conv_rhs => rw [hw]
  exact (head?_append_left h).symm

theorem trimL_eq_self_of_head {s : List Char}
    (h : ∀ c, s.head? = some c → jsWs c = false) : trimL s = s :=
  dropWhile_eq_self_of_head h

theorem trimR_eq_self_of_getLast {s : List Char}
    (h : ∀ c, s.getLast? = some c → jsWs c = false) : trimR s = s := by
  rw [trimR, dropWhile_eq_self_of_head, List.reverse_reverse]
  intro c hc
  rw [List.head?_reverse] at hc
  exact h c hc

theorem head?_trimL_false {s : List Char} {c : Char}
    (h : (trimL s).head? = some c) : jsWs c = false :=
  dropWhile_head_false h

theorem trimR_trimL_of_head {s : List Char}
    (h : ∀ c, s.head? = some c → jsWs c = false) :
    trimL (trimR s) = trimR s := by
  by_cases he : trimR s = []
  · rw [he]; rfl
  · apply trimL_eq_self_of_head
    intro c hc
    rw [head?_trimR he] at hc
    exact h c hc

theorem trimR_idem (s : List Char) : trimR (trimR s) = trimR s := by
  rw [trimR, trimR, List.reverse_reverse, dropWhile_idem]

theorem trimStr_idem (s : List Char) : trimStr (trimStr s) = trimStr s := by
  rw [trimStr, trimStr]
  rw [trimR_trimL_of_head (fun c hc => head?_trimL_false hc)]
  exact trimR_idem (trimL s)

theorem trimStr_eq_self {s : List Char}
    (hh : ∀ c, s.head? = some c → jsWs c = false)
    (hl : ∀ c, s.getLast? = some c → jsWs c = false) : trimStr s = s := by
  rw [trimStr, trimL_eq_self_of_head hh, trimR_eq_self_of_getLast hl]

theorem head?_trimStr_false {s : List Char} {c : Char}
    (h : (trimStr s).head? = some c) : jsWs c = false := by
  rw [trimStr] at h
  by_cases he : trimR (trimL s) = []
  · rw [he] at h; exact absurd h (by simp)
  · rw [head?_trimR he] at h
    exact head?_trimL_false h

theorem getLast?_trimStr_false {s : List Char} {c : Char}
    (h : (trimStr s).getLast? = some c) : jsWs c = false := by
  rw [trimStr, trimR, ← List.head?_reverse, List.reverse_reverse] at h
  exact dropWhile_head_false h

theorem mem_trimStr {s : List Char} {c : Char} (h : c ∈ trimStr s) : c ∈ s := by
  rw [trimStr, trimR] at h
  rw [List.mem_reverse] at h
  have h1 := (List.dropWhile_sublist jsWs).mem h
  rw [List.mem_reverse] at h1
  have h2 := (List.dropWhile_sublist (l := s) jsWs).mem h1
  exact h2

theorem trimR_append_ws {x w : List Char} (h : ∀ c ∈ w, jsWs c = true) :
    trimR (x ++ w) = trimR x := by
  rw [trimR, trimR, List.reverse_append, dropWhile_append_of_all]
  intro c hc
  exact h c (List.mem_reverse.mp hc)

theorem lt_mem_openTag : '<' ∈ openTag := by decide

theorem openTag_cons : openTag = '<' :: "think>".data := by decide

theorem closeTag_cons : closeTag = '<' :: "/think>".data := by decide

theorem execMatches_eq_nil {s : List Char} (h : splitFirst openTag s = none) :
    execMatches s = [] := by
  rw [execMatches]
  cases hl : s.length with
  | zero => rfl
  | succ n => simp [execMatchesAux, h]

theorem execMatches_cons {s a rest1 mid rest2 : List Char}
    (h1 : splitFirst openTag s = some (a, rest1))
    (h2 : splitFirst closeTag rest1 = some (mid, rest2)) :
    execMatches s = (openTag ++ mid ++ closeTag) :: execMatches rest2 := by
  have l1 := splitFirst_length openTag_ne_nil h1
  have l2 := splitFirst_length closeTag_ne_nil h2
  rw [execMatches, execMatches]
  cases hl : s.length with
  | zero =>
    have : s = [] := List.length_eq_zero.mp hl
    subst this
    rw [splitFirst_nil_of_ne openTag_ne_nil] at h1
    exact absurd h1 (by simp)
  | succ n =>
    simp only [execMatchesAux, h1, h2]
    rw [execMatchesAux_congr n rest2.length rest2 (by omega) (by omega)]

theorem parseOllamaResponse_of_noOcc {s : List Char} (h : NoOcc openTag s) :
    parseOllamaResponse s = trimStr s := by
  rw [parseOllamaResponse, execMatches_eq_nil (splitFirst_none_of_noOcc h)]
  rfl

theorem parseOllamaResponse_of_not_mem_lt {s : List Char} (h : '<' ∉ s) :
    parseOllamaResponse s = trimStr s :=
  parseOllamaResponse_of_noOcc (noOcc_of_not_mem lt_mem_openTag h)

/-- An input shaped as plain text interleaved with zero or more
`<think>...</think>` segments: `t0`, then for each `(s, t)` in `segs` the
segment `<think>s</think>` followed by the plain text `t`. -/
def assembleThink (t0 : List Char) : List (List Char × List Char) → List Char
  | [] => t0
  | (s, t) :: rest => t0 ++ openTag ++ s ++ closeTag ++ assembleThink t rest

/-- The same interleaving with every `<think>...</think>` segment removed,
delimiters included, the remaining plain text in its original order. -/
def stripSegs (t0 : List Char) : List (List Char × List Char) → List Char
  | [] => t0
  | (_, t) :: rest => t0 ++ stripSegs t rest

theorem splitFirst_append' {pat : List Char} {hd : Char} {pt a b : List Char}
    (hpat : pat = hd :: pt) (ha : hd ∉ a) :
    splitFirst pat (a ++ (pat ++ b)) = some (a, b) := by
  have := splitFirst_append hpat ha (b := b)
  rw [← List.append_assoc]
  exact this

theorem mem_stripSegs {c : Char} {t0 : List Char}
    {segs : List (List Char × List Char)} (h : c ∈ stripSegs t0 segs) :
    c ∈ t0 ∨ ∃ p ∈ segs, c ∈ p.2 := by
  induction segs generalizing t0 with
  | nil => exact Or.inl h
  | cons q rest ih =>
    obtain ⟨s, t⟩ := q
    rw [stripSegs, List.mem_append] at h
    rcases h with h | h
    · exact Or.inl h
    · rcases ih h with h' | ⟨p, hp, hc⟩
      · exact Or.inr ⟨(s, t), by simp, h'⟩
      · exact Or.inr ⟨p, by simp [hp], hc⟩

theorem execMatches_assemble (t0 : List Char)
    (segs : List (List Char × List Char)) (h0 : '<' ∉ t0)
    (hsegs : ∀ p ∈ segs, '<' ∉ p.1 ∧ '<' ∉ p.2) :
    execMatches (assembleThink t0 segs) =
      segs.map (fun p => openTag ++ p.1 ++ closeTag) := by
  induction segs generalizing t0 with
  | nil =>
    rw [assembleThink, List.map_nil]
    exact execMatches_eq_nil
      (splitFirst_none_of_noOcc (noOcc_of_not_mem lt_mem_openTag h0))
  | cons q rest ih =>
    obtain ⟨s, t⟩ := q
    have hs : '<' ∉ s := (hsegs (s, t) (by simp)).1
    have ht : '<' ∉ t := (hsegs (s, t) (by simp)).2
    have hrest : ∀ p ∈ rest, '<' ∉ p.1 ∧ '<' ∉ p.2 :=
      fun p hp => hsegs p (by simp [hp])
    have h1 : splitFirst openTag (assembleThink t0 ((s, t) :: rest)) =
        some (t0, s ++ (closeTag ++ assembleThink t rest)) := by
      rw [assembleThink]
      rw [show t0 ++ openTag ++ s ++ closeTag ++ assembleThink t rest =
        t0 ++ (openTag ++ (s ++ (closeTag ++ assembleThink t rest))) by simp]
      exact splitFirst_append' openTag_cons h0
    have h2 : splitFirst closeTag (s ++ (closeTag ++ assembleThink t rest)) =
        some (s, assembleThink t rest) :=
      splitFirst_append' closeTag_cons hs
    rw [execMatches_cons h1 h2, ih t ht hrest, List.map_cons]

theorem foldl_removeFirst_assemble (segs : List (List Char × List Char)) :
    ∀ u t : List Char, '<' ∉ u → '<' ∉ t →
    (∀ p ∈ segs, '<' ∉ p.1 ∧ '<' ∉ p.2) →
    List.foldl (fun acc m => removeFirst m acc) (u ++ assembleThink t segs)
      (segs.map (fun p => openTag ++ p.1 ++ closeTag)) = u ++ stripSegs t segs := by
  induction segs with
  | nil => intro u t _ _ _; rw [assembleThink, stripSegs, List.map_nil, List.foldl_nil]
  | cons q rest ih =>
    intro u t hu ht hsegs
    obtain ⟨s, t'⟩ := q
    have hs : '<' ∉ s := (hsegs (s, t') (by simp)).1
    have ht' : '<' ∉ t' := (hsegs (s, t') (by simp)).2
    have hrest : ∀ p ∈ rest, '<' ∉ p.1 ∧ '<' ∉ p.2 :=
      fun p hp => hsegs p (by simp [hp])
    have hut : '<' ∉ u ++ t := by
      rw [List.mem_append]; rintro (h | h); exact hu h; exact ht h
    have hsplit : splitFirst (openTag ++ s ++ closeTag)
        (u ++ assembleThink t ((s, t') :: rest)) =
        some (u ++ t, assembleThink t' rest) := by
      rw [assembleThink]
      rw [show u ++ (t ++ openTag ++ s ++ closeTag ++ assembleThink t' rest) =
        (u ++ t) ++ ((openTag ++ s ++ closeTag) ++ assembleThink t' rest) by simp]
      exact splitFirst_append'
        (show openTag ++ s ++ closeTag = '<' :: ("think>".data ++ s ++ closeTag)
          by rw [openTag_cons]; simp) hut
    rw [List.map_cons, List.foldl_cons]
    rw [show removeFirst (openTag ++ s ++ closeTag)
        (u ++ assembleThink t ((s, t') :: rest)) = (u ++ t) ++ assembleThink t' rest by
      rw [removeFirst, hsplit]]
    rw [ih (u ++ t) t' hut ht' hrest]
    rw [stripSegs]
    simp

theorem parseOllamaResponse_assemble (t0 : List Char)
    (segs : List (List Char × List Char)) (h0 : '<' ∉ t0)
    (hsegs : ∀ p ∈ segs, '<' ∉ p.1 ∧ '<' ∉ p.2) :
    parseOllamaResponse (assembleThink t0 segs) = trimStr (stripSegs t0 segs) := by
  rw [parseOllamaResponse, execMatches_assemble t0 segs h0 hsegs]
  rw [show assembleThink t0 segs = [] ++ assembleThink t0 segs by simp]
  rw [foldl_removeFirst_assemble segs [] t0 (by simp) h0 hsegs]
  rw [List.nil_append]

/-- The opening token of a `json`-tagged markdown fence. -/
def fenceJson : List Char := "```json".data

/-- The markdown fence token. -/
def fence : List Char := "```".data

theorem fenceJson_cons : fenceJson = '`' :: "``json".data := by decide

theorem fence_cons : fence = '`' :: "``".data := by decide

theorem fence_ne_nil : fence ≠ [] := by decide

/-- `extractJsonFromMarkdown` (src/generateNovel.js:225-237).  The regex
`/```json\s*([\s\S]*?)\s*```/` matches at the first occurrence of
"```json"; its greedy leading `\s*` takes the maximal whitespace run, the
lazy group then extends to just before the first following "```" and the
inner greedy `\s*` absorbs the group's trailing whitespace, so the capture
is the fenced interior with surrounding whitespace stripped.  The source
guards on `match && match[1]`, and an empty capture is falsy in JS, so a
whitespace-only interior falls through to returning the input text. -/
def extractJsonFromMarkdown (text : List Char) : List Char :=
  match splitFirst fenceJson text with
  | none => text
  | some (_, rest) =>
    match splitFirst fence (rest.dropWhile jsWs) with
    | none => text
    | some (g0, _) =>
      if (trimR g0).isEmpty then text else trimStr (trimR g0)

theorem noOcc_fenceJson_of_fence {s : List Char} (h : NoOcc fence s) :
    NoOcc fenceJson s := by
  intro x y hxy
  refine h x ("json".data ++ y) ?_
  rw [hxy, show fenceJson = fence ++ "json".data from by decide]
  simp

theorem extractJson_no_fence {s : List Char} (h : NoOcc fenceJson s) :
    extractJsonFromMarkdown s = s := by
  rw [extractJsonFromMarkdown, splitFirst_none_of_noOcc h]

theorem extractJson_one_fence {a w g w' b : List Char} (ha : '`' ∉ a)
    (hg : '`' ∉ g) (hgn : g ≠ []) (hgt : trimStr g = g)
    (hw : ∀ c ∈ w, jsWs c = true) (hw' : ∀ c ∈ w', jsWs c = true) :
    extractJsonFromMarkdown (a ++ fenceJson ++ w ++ g ++ w' ++ fence ++ b) = g := by
  have h1 : splitFirst fenceJson (a ++ fenceJson ++ w ++ g ++ w' ++ fence ++ b) =
      some (a, w ++ (g ++ (w' ++ (fence ++ b)))) := by
    rw [show a ++ fenceJson ++ w ++ g ++ w' ++ fence ++ b =
      a ++ (fenceJson ++ (w ++ (g ++ (w' ++ (fence ++ b))))) by simp]
    exact splitFirst_append' fenceJson_cons ha
  have hdrop : (w ++ (g ++ (w' ++ (fence ++ b)))).dropWhile jsWs =
      g ++ (w' ++ (fence ++ b)) := by
    rw [dropWhile_append_of_all _ hw]
    apply dropWhile_eq_self_of_head
    intro c hc
    rw [head?_append_left hgn] at hc
    exact head?_trimStr_false (by rw [hgt]; exact hc)
  have hbt : '`' ∉ g ++ w' := by
    rw [List.mem_append]
    rintro (h | h)
    · exact hg h
    · have h1 := hw' '`' h
      have h2 : jsWs '`' = false := by decide
      rw [h2] at h1
      exact absurd h1 (by simp)
  have h2 : splitFirst fence (g ++ (w' ++ (fence ++ b))) = some (g ++ w', b) := by
    rw [show g ++ (w' ++ (fence ++ b)) = (g ++ w') ++ (fence ++ b) by simp]
    exact splitFirst_append' fence_cons hbt
  have htrimR : trimR (g ++ w') = g := by
    rw [trimR_append_ws hw']
    apply trimR_eq_self_of_getLast
    intro c hc
    exact getLast?_trimStr_false (by rw [hgt]; exact hc)
  have hne : g.isEmpty = false := by
    cases g with
    | nil => exact absurd rfl hgn
    | cons c0 g' => rfl
  rw [extractJsonFromMarkdown, h1]
  rw [show (match splitFirst fence ((w ++ (g ++ (w' ++ (fence ++ b)))).dropWhile jsWs) with
    | none => a ++ fenceJson ++ w ++ g ++ w' ++ fence ++ b
    | some (g0, _) =>
      if (trimR g0).isEmpty then a ++ fenceJson ++ w ++ g ++ w' ++ fence ++ b
      else trimStr (trimR g0)) =
      if (trimR (g ++ w')).isEmpty then a ++ fenceJson ++ w ++ g ++ w' ++ fence ++ b
      else trimStr (trimR (g ++ w')) by rw [hdrop, h2]]
  rw [htrimR, hne]
  simp [hgt]

theorem extractJson_idem (u : List Char) :
    extractJsonFromMarkdown (extractJsonFromMarkdown u) = extractJsonFromMarkdown u := by
  cases h1 : splitFirst fenceJson u with
  | none =>
    have h : extractJsonFromMarkdown u = u := by
      rw [extractJsonFromMarkdown, h1]
    rw [h]
    exact h
  | some p =>
    obtain ⟨a0, rest⟩ := p
    cases h2 : splitFirst fence (rest.dropWhile jsWs) with
    | none =>
      have h : extractJsonFromMarkdown u = u := by
        simp only [extractJsonFromMarkdown, h1, h2]
      rw [h]
      exact h
    | some q =>
      obtain ⟨g0, tail⟩ := q
      cases hge : (trimR g0).isEmpty with
      | true =>
        have h : extractJsonFromMarkdown u = u := by
          simp only [extractJsonFromMarkdown, h1, h2, hge, if_true]
        rw [h]
        exact h
      | false =>
        have hE : extractJsonFromMarkdown u = trimStr (trimR g0) := by
          simp only [extractJsonFromMarkdown, h1, h2, hge]
          rfl
        have hno : NoOcc fence g0 := splitFirst_some_noOcc_left fence_ne_nil h2
        rcases trimR_eq_append g0 with ⟨w1, _, hw1⟩
        rcases trimL_eq_append (trimR g0) with ⟨w2, _, hw2⟩
        rcases trimR_eq_append (trimL (trimR g0)) with ⟨w3, _, hw3⟩
        have hdecomp : g0 = w2 ++ trimStr (trimR g0) ++ (w3 ++ w1) := by
          conv_lhs => rw [hw1]
          conv_lhs => rw [hw2]
          conv_lhs => rw [hw3]
          rw [trimStr]
          simp
        have hno2 : NoOcc fence (trimStr (trimR g0)) := noOcc_sub (hdecomp ▸ hno)
        rw [hE]
        exact extractJson_no_fence (noOcc_fenceJson_of_fence hno2)

/-- Claim C6 (amended): on an input assembled from `<think>...</think>`
segments interleaved with plain text that contains no `<` character (so no
stray tag fragments), `parseOllamaResponse` returns the input with every
segment removed, delimiters included, in order, then trimmed; the result is
a fixed point of `parseOllamaResponse`; and a no-segment input is returned
unchanged up to trimming.  (As literally stated the claim fails: plain text
containing tag fragments can splice into a fresh `<think>...</think>`
segment after removal, see the counterexample.) -/
theorem parseOllamaResponse_spec (t0 : List Char)
    (segs : List (List Char × List Char)) (h0 : '<' ∉ t0)
    (hsegs : ∀ p ∈ segs, '<' ∉ p.1 ∧ '<' ∉ p.2) :
    parseOllamaResponse (assembleThink t0 segs) = trimStr (stripSegs t0 segs) ∧
    parseOllamaResponse (parseOllamaResponse (assembleThink t0 segs)) =
      parseOllamaResponse (assembleThink t0 segs) ∧
    (segs = [] → parseOllamaResponse t0 = trimStr t0) := by
  have hmain := parseOllamaResponse_assemble t0 segs h0 hsegs
  have hfree : '<' ∉ trimStr (stripSegs t0 segs) := by
    intro hc
    rcases mem_stripSegs (mem_trimStr hc) with h | ⟨p, hp, hc2⟩
    · exact h0 h
    · exact (hsegs p hp).2 hc2
  refine ⟨hmain, ?_, ?_⟩
  · rw [hmain, parseOllamaResponse_of_not_mem_lt hfree, trimStr_idem]
  · intro hnil
    subst hnil
    exact hmain

/-- Claim C6 witness: a concrete response with one reasoning segment. -/
theorem parseOllamaResponse_spec_witness :
    ('<' ∉ "Hello ".data) ∧
    (∀ p ∈ [(" pondering ".data, "World".data)],
      '<' ∉ p.1 ∧ '<' ∉ (p.2 : List Char)) ∧
    (parseOllamaResponse
        (assembleThink "Hello ".data [(" pondering ".data, "World".data)]) =
      trimStr (stripSegs "Hello ".data [(" pondering ".data, "World".data)]) ∧
    parseOllamaResponse (parseOllamaResponse
        (assembleThink "Hello ".data [(" pondering ".data, "World".data)])) =
      parseOllamaResponse
        (assembleThink "Hello ".data [(" pondering ".data, "World".data)]) ∧
    ([(" pondering ".data, "World".data)] =
        ([] : List (List Char × List Char)) →
      parseOllamaResponse "Hello ".data = trimStr "Hello ".data)) :=
  ⟨by decide, by decide,
    parseOllamaResponse_spec "Hello ".data [(" pondering ".data, "World".data)]
      (by decide) (by decide)⟩

/-- Claim C6 counterexample: stripping is not idempotent.  On
`"<thi<think>a</think>nk>X</think>"` the single regex match is
`"<think>a</think>"`; removing it splices the surrounding fragments into
`"<think>X</think>"`, which a second application strips to `""`. -/
theorem parseOllamaResponse_not_idempotent :
    parseOllamaResponse (parseOllamaResponse "<thi<think>a</think>nk>X</think>".data) ≠
      parseOllamaResponse "<thi<think>a</think>nk>X</think>".data := by decide

/-- Claim C7 (amended): markdown-fence extraction returns a no-fence input
unchanged; on an input with exactly one `json`-tagged fence whose interior
is not whitespace-only it returns the fenced interior trimmed; and it is
idempotent on every input.  (As literally stated the claim fails for a
fence with whitespace-only interior: the empty capture is falsy in JS and
the whole input is returned instead of the empty interior, see the
counterexample.) -/
theorem extractJsonFromMarkdown_spec (s a w g w' b : List Char)
    (hs : NoOcc fenceJson s) (ha : '`' ∉ a) (hg : '`' ∉ g) (hgn : g ≠ [])
    (hgt : trimStr g = g) (hw : ∀ c ∈ w, jsWs c = true)
    (hw' : ∀ c ∈ w', jsWs c = true) :
    extractJsonFromMarkdown s = s ∧
    extractJsonFromMarkdown (a ++ fenceJson ++ w ++ g ++ w' ++ fence ++ b) = g ∧
    (∀ u, extractJsonFromMarkdown (extractJsonFromMarkdown u) =
      extractJsonFromMarkdown u) :=
  ⟨extractJson_no_fence hs, extractJson_one_fence ha hg hgn hgt hw hw',
    extractJson_idem⟩

/-- Claim C7 witness: concrete plain text and a concrete single-fence
input. -/
theorem extractJsonFromMarkdown_spec_witness :
    NoOcc fenceJson "plain text".data ∧
    ('`' ∉ "See: ".data) ∧ ('`' ∉ "[1, 2]".data) ∧
    trimStr "[1, 2]".data = "[1, 2]".data ∧
    (extractJsonFromMarkdown "plain text".data = "plain text".data ∧
    extractJsonFromMarkdown ("See: ".data ++ fenceJson ++ " ".data ++
      "[1, 2]".data ++ "\n".data ++ fence ++ " tail".data) = "[1, 2]".data ∧
    (∀ u, extractJsonFromMarkdown (extractJsonFromMarkdown u) =
      extractJsonFromMarkdown u)) :=
  ⟨noOcc_iff_splitFirst_none.mpr (by decide), by decide, by decide, by decide,
    extractJsonFromMarkdown_spec "plain text".data "See: ".data " ".data
      "[1, 2]".data "\n".data " tail".data
      (noOcc_iff_splitFirst_none.mpr (by decide)) (by decide) (by decide)
      (by decide) (by decide) (by decide) (by decide)⟩

/-- Claim C7 counterexample: the input "```json\n```" contains exactly one
`json`-tagged fence, whose interior trims to the empty string, yet the
function returns the whole input unchanged rather than the trimmed
interior. -/
theorem extractJsonFromMarkdown_empty_fence :
    extractJsonFromMarkdown "```json\n```".data = "```json\n```".data ∧
    "```json\n```".data ≠ ([] : List Char) := by decide

/-- JavaScript values, as far as this program manipulates them. -/
inductive JsValue where
  | undef : JsValue
  | null : JsValue
  | bool : Bool → JsValue
  | num : Int → JsValue
  | str : List Char → JsValue
  | arr : List JsValue → JsValue
  | obj : List (List Char × JsValue) → JsValue

def isNullOrUndef : JsValue → Bool
  | .undef => true
  | .null => true
  | _ => false

/-- Decimal rendering of a JS integer-valued number. -/
def natChars (n : Nat) : List Char := (Nat.repr n).data

def intChars (n : Int) : List Char := (Int.repr n).data

/-- String coercion in a template literal position (JS `String(v)`):
arrays join their elements with commas (null/undefined joining as empty),
plain objects render as "[object Object]". -/
def jsToTemplate : JsValue → List Char
  | .undef => "undefined".data
  | .null => "null".data
  | .bool true => "true".data
  | .bool false => "false".data
  | .num n => intChars n
  | .str s => s
  | .obj _ => "[object Object]".data
  | .arr xs =>
    List.intercalate ",".data (xs.attach.map (fun x =>
      if isNullOrUndef x.1 then [] else jsToTemplate x.1))
decreasing_by
  have := List.sizeOf_lt_of_mem x.2
  simp_wf
  omega

def escapeJsonChar (c : Char) : List Char :=
  if c = '"' then ['\\', '"']
  else if c = '\\' then ['\\', '\\']
  else if c = '\n' then ['\\', 'n']
  else if c = '\t' then ['\\', 't']
  else if c = '\r' then ['\\', 'r']
  else [c]

def escapeJson (s : List Char) : List Char := (s.map escapeJsonChar).flatten

/-- `JSON.stringify` on the values this program feeds it (plan entries
coming from `JSON.parse` or the fallback plan, hence no undefined members;
a top-level undefined renders as in a template position since the caller
interpolates the result into a template literal). -/
def jsonStringify : JsValue → List Char
  | .undef => "undefined".data
  | .null => "null".data
  | .bool true => "true".data
  | .bool false => "false".data
  | .num n => intChars n
  | .str s => '"' :: (escapeJson s ++ ['"'])
  | .arr xs =>
    '[' :: (List.intercalate ",".data (xs.attach.map (fun x => jsonStringify x.1)) ++ ["]".data.headD ']'])
  | .obj fs =>
    '\x7b' :: (List.intercalate ",".data (fs.attach.map (fun kv =>
      ('"' :: (escapeJson kv.1.1 ++ ['"'])) ++ (':' :: jsonStringify kv.1.2))) ++ ['\x7d'])
decreasing_by
  all_goals simp_wf
  all_goals first
    | (have h9 := List.sizeOf_lt_of_mem x.2
       omega)
    | (have h := List.sizeOf_lt_of_mem kv.2
       have h2 : sizeOf kv.1.2 < sizeOf kv.1 := by
         obtain ⟨a, b⟩ := kv.1
         simp only [Prod.mk.sizeOf_spec]
         omega
       omega)

/-- `Object.keys` on a non-null, non-undefined value.  Field order of the
`JSON.parse` results used here is insertion order (the integer-key
reordering of JS property enumeration does not arise for the chapter-plan
keys this program consumes). -/
def objectKeysD : JsValue → List (List Char)
  | .obj fs => fs.map Prod.fst
  | .str s => (List.range s.length).map natChars
  | .arr xs => (List.range xs.length).map natChars
  | _ => []

/-- A failed generation call: endpoint unreachable / non-success HTTP
status (transport) or undecodable response body (service). -/
inductive CallErr where
  | transport : CallErr
  | service : CallErr

/-- How a run can abort: a propagated generation-call error, a JS
TypeError (property access on undefined/null), or fuel exhaustion — the
modelling artifact standing for the source's unbounded retry recursion
never returning. -/
inductive RunErr where
  | call : CallErr → RunErr
  | typeError : RunErr
  | noFuel : RunErr

/-- `Object.keys(v)`: throws a TypeError on null/undefined. -/
def objectKeys : JsValue → Except RunErr (List (List Char))
  | .undef => .error .typeError
  | .null => .error .typeError
  | v => .ok (objectKeysD v)

def jsIndexD : JsValue → Nat → JsValue
  | .arr xs, i => xs.getD i .undef
  | .str s, i => if h : i < s.length then .str [s.get ⟨i, h⟩] else .undef
  | .obj fs, i =>
    match fs.find? (fun kv => kv.1 == natChars i) with
    | some kv => kv.2
    | none => .undef
  | _, _ => (.undef : JsValue)

/-- JS member access `v[i]` for a numeric index: throws a TypeError on
null/undefined, otherwise array element, string character, object property
or undefined. -/
def jsIndex (v : JsValue) (i : Nat) : Except RunErr JsValue :=
  match v with
  | .undef => .error .typeError
  | .null => .error .typeError
  | _ => .ok (jsIndexD v i)

/-- `Object.keys(v)[0]` used as a computed property key: an absent first
key (undefined) coerces to the string "undefined". -/
def planKey (v : JsValue) : List Char := (objectKeysD v).headD "undefined".data

/-- CLI default (src/generateNovel.js:27); only `language` feeds the core
pipeline, through the instruction prefix below. -/
def language : List Char := "English".data

/-- src/generateNovel.js:60: the prefix prepended to every prompt; an empty
language string is falsy in JS and would yield no instruction. -/
def languageInstruction : List Char :=
  if language.isEmpty then [] else
    "Respond in the language ".data ++ language ++ ". ".data

/-- The external world of one run: the outcome of the k-th HTTP generation
call (the raw `data.response` text, or a transport/service error), and the
platform JSON parser (`none` models a `JSON.parse` exception). -/
structure Env where
  responses : Nat → Except CallErr (List Char)
  jsonParse : List Char → Option JsValue

/-- Call counter plus the sequence of prompts sent so far.  The trace is
pure instrumentation: it lets theorems state which context each generation
call receives, and does not influence behaviour. -/
structure CallState where
  k : Nat
  trace : List (List Char)

/-- `callOllama` (src/generateNovel.js:56-85): prefixes the language
instruction, performs the non-streaming HTTP call, rethrows the
transport/service error unchanged on failure, and strips reasoning from
the response via `parseOllamaResponse`. -/
def callOllama (env : Env) (st : CallState) (prompt : List Char) :
    Except CallErr (List Char × CallState) :=
  match env.responses st.k with
  | .error e => .error e
  | .ok data =>
    .ok (parseOllamaResponse data,
      ⟨st.k + 1, st.trace ++ [languageInstruction ++ prompt]⟩)

/-- JS `String.prototype.split('\n')`. -/
def splitNl : List Char → List (List Char)
  | [] => [[]]
  | c :: cs =>
    match splitNl cs with
    | [] => [[c]]
    | h :: t => if c = '\n' then [] :: h :: t else (c :: h) :: t

/-- `Array.prototype.toString`: elements joined with commas. -/
def joinComma (xs : List (List Char)) : List Char := List.intercalate ",".data xs

def generatePlotsPrompt (prompt : List Char) : List Char :=
  "You are a creative assistant that generates engaging fantasy novel plots.\n  \n  Generate 10 fantasy novel plots based on this prompt: ".data ++ prompt

def selectMostEngagingPrompt (plots : List Char) : List Char :=
  "You are an expert in writing fantastic fantasy novel plots.\n  \n  Here are a number of possible plots for a new novel: ".data ++ plots ++
  "\n  \n  Now, write the final plot that we will go with. It can be one of these, a mix of the best elements of multiple, or something completely new and better. The most important thing is the plot should be fantastic, unique, and engaging.".data

def improvePlotPrompt (plot : List Char) : List Char :=
  "You are an expert in improving and refining story plots.\n  \n  Improve this plot: ".data ++ plot

def getTitlePrompt (plot : List Char) : List Char :=
  "You are an expert writer.\n  \n  Here is the plot: ".data ++ plot ++
  "\n  \n  What is the title of this book? Just respond with the title, do nothing else.".data

def writeFirstChapterPrompt (plot title ws : List Char) : List Char :=
  "You are a world-class fantasy writer.\n  \n  Here is the high-level plot to follow: ".data ++ plot ++
  "\n  \n  Write the first chapter of this novel: `".data ++ title ++
  "`.\n  \n  Make it incredibly unique, engaging, and well-written.\n  \n  Here is a description of the writing style you should use: `".data ++ ws ++
  "`\n  \n  Include only the chapter text. There is no need to rewrite the chapter name.".data

def improveFirstChapterPrompt (plot firstDraft ws : List Char) : List Char :=
  "You are a world-class fantasy writer. Your job is to take your student\x27s rough initial draft of the first chapter of their fantasy novel, and rewrite it to be significantly better, with much more detail.\n  \n  Here is the high-level plot you asked your student to follow: ".data ++ plot ++
  "\n  \n  Here is the first chapter they wrote: ".data ++ firstDraft ++
  "\n  \n  Now, rewrite the first chapter of this novel, in a way that is far superior to your student\x27s chapter. It should still follow the exact same plot, but it should be far more detailed, much longer, and more engaging. Here is a description of the writing style you should use: `".data ++ ws ++ "`".data

def writeChapterPrompt (previousChapters plot ctJson : List Char) : List Char :=
  "You are a world-class fantasy writer.\n  \n  Plot: ".data ++ plot ++
  "\n  Previous Chapters: ".data ++ previousChapters ++
  "\n  \n  Write the next chapter of this novel, following the plot and taking in the previous chapters as context. Here is the plan for this chapter: ".data ++ ctJson ++
  "\n  \n  Write it beautifully. Include only the chapter text. There is no need to rewrite the chapter name.".data

def jsonFormat : List Char :=
  "[\x7b\"Chapter CHAPTER_NUMBER_HERE - CHAPTER_TITLE_GOES_HERE\": \"CHAPTER_OVERVIEW_AND_DETAILS_GOES_HERE\"\x7d, ...]".data

def generateStorylinePrompt (plot : List Char) (numChapters : Nat) : List Char :=
  "You are a world-class fantasy writer. Your job is to write a detailed storyline, complete with chapters, for a fantasy novel. Don\x27t be flowery -- you want to get the message across in as few words as possible. But those words should contain lots of information.\n  \n  Write a fantastic storyline with ".data ++ natChars numChapters ++
  " chapters and high-level details based on this plot: ".data ++ plot ++
  ".\n  \n  output the response in a json format following this template ".data ++ jsonFormat

def improveStorylinePrompt (initialResponse : List Char) : List Char :=
  "You are a world-class fantasy writer. Your job is to take your student\x27s rough initial draft of the storyline of a fantasy novel, and rewrite it to be significantly better.\n  \n  Here is the draft storyline they wrote: ".data ++ initialResponse ++
  "\n  \n  Now, rewrite the storyline, in a way that is far superior to your student\x27s version. It should have the same number of chapters, but it should be much improved in as many ways as possible. Remember to do it in this list of dictionaries format ".data ++ jsonFormat

def generateCoverPromptText (plot : List Char) : List Char :=
  "You are a creative assistant that writes a spec for the cover art of a book, based on the book\x27s plot.\n  \n  Plot: ".data ++ plot ++
  "\n  \n  Describe the cover we should create, based on the plot. This should be two sentences long, maximum.".data

/-- `generatePlots` (src/generateNovel.js:133-141): one call, response split
into lines. -/
def generatePlots (env : Env) (st : CallState) (prompt : List Char) :
    Except CallErr (List (List Char) × CallState) :=
  match callOllama env st (generatePlotsPrompt prompt) with
  | .error e => .error e
  | .ok (response, st1) => .ok (splitNl response, st1)

/-- `selectMostEngaging` (143-152): the candidate array is interpolated
into the template, joining with commas. -/
def selectMostEngaging (env : Env) (st : CallState) (plots : List (List Char)) :
    Except CallErr (List Char × CallState) :=
  callOllama env st (selectMostEngagingPrompt (joinComma plots))

/-- `improvePlot` (154-161). -/
def improvePlot (env : Env) (st : CallState) (plot : List Char) :
    Except CallErr (List Char × CallState) :=
  callOllama env st (improvePlotPrompt plot)

/-- `getTitle` (163-172). -/
def getTitle (env : Env) (st : CallState) (plot : List Char) :
    Except CallErr (List Char × CallState) :=
  callOllama env st (getTitlePrompt plot)

/-- `generateStoryline` (239-262): two calls, then markdown-fence
extraction of the improved response. -/
def generateStoryline (env : Env) (st : CallState) (plot : List Char)
    (numChapters : Nat) : Except CallErr (List Char × CallState) :=
  match callOllama env st (generateStorylinePrompt plot numChapters) with
  | .error e => .error e
  | .ok (initialResponse, st1) =>
    match callOllama env st1 (improveStorylinePrompt initialResponse) with
    | .error e => .error e
    | .ok (improvedResponse, st2) =>
      .ok (extractJsonFromMarkdown improvedResponse, st2)

/-- `writeFirstChapter` (174-200): draft then improve; the plan entry is a
JS value interpolated into the template. -/
def writeFirstChapter (env : Env) (st : CallState) (plot : List Char)
    (firstChapterTitle : JsValue) (writingStyle : List Char) :
    Except CallErr (List Char × CallState) :=
  match callOllama env st
      (writeFirstChapterPrompt plot (jsToTemplate firstChapterTitle) writingStyle) with
  | .error e => .error e
  | .ok (firstDraft, st1) =>
    callOllama env st1 (improveFirstChapterPrompt plot firstDraft writingStyle)

/-- `writeChapter` (202-223): evaluates `Object.keys(chapterTitle)[0]` for
the log line (a TypeError if the plan entry is null or undefined), makes
the call, and reissues the identical request while the response is shorter
than 1000 characters.  `fuel` bounds the source's unbounded
self-recursion. -/
def writeChapter (env : Env) :
    Nat → CallState → List Char → List Char → JsValue →
    Except RunErr (List Char × CallState)
  | 0, _, _, _, _ => .error .noFuel
  | fuel + 1, st, previousChapters, plot, chapterTitle =>
    match objectKeys chapterTitle with
    | .error e => .error e
    | .ok _ =>
      match callOllama env st
          (writeChapterPrompt previousChapters plot (jsonStringify chapterTitle)) with
      | .error e => .error (.call e)
      | .ok (response, st1) =>
        if response.length < 1000 then
          writeChapter env fuel st1 previousChapters plot chapterTitle
        else .ok (response, st1)

/-- The fallback plan (src/generateNovel.js:339-341):
`Array.from({length: numChapters}, (_, i) => ({ [`Chapter ${i+1} - Untitled`]: `This is chapter ${i+1}` }))`. -/
def fallbackPlan (numChapters : Nat) : List JsValue :=
  (List.range numChapters).map (fun i =>
    .obj [("Chapter ".data ++ natChars (i + 1) ++ " - Untitled".data,
      .str ("This is chapter ".data ++ natChars (i + 1)))])

/-- Lines 330-342: parse the storyline text; a `JSON.parse` exception is
caught and the fallback plan substituted. -/
def parsedPlan (env : Env) (numChapters : Nat) (storyline : List Char) : JsValue :=
  match env.jsonParse storyline with
  | some v => v
  | none => .arr (fallbackPlan numChapters)

/-- The record returned by `writeFantasyNovel` (line 364); a ChapterRecord
`{ [key]: chapter }` is modelled as the pair (key, chapter). -/
structure NovelResult where
  novel : List Char
  title : List Char
  chapters : List (List Char)
  chapterObjects : List (List Char × List Char)

/-- The `for (let i = 1; i < numChapters; i++)` loop of `writeFantasyNovel`
(354-362); `n` is the number of remaining iterations, `i` the JS loop
index. -/
def chaptersLoop (env : Env) (fuel : Nat) (storyline : List Char)
    (chapterTitles : JsValue) :
    Nat → Nat → List Char → List (List Char) → List (List Char × List Char) →
    CallState →
    Except RunErr (List Char × List (List Char) × List (List Char × List Char) × CallState)
  | 0, _, novel, chapters, chapterObjects, st => .ok (novel, chapters, chapterObjects, st)
  | n + 1, i, novel, chapters, chapterObjects, st =>
    match jsIndex chapterTitles i with
    | .error e => .error e
    | .ok ct =>
      match writeChapter env fuel st novel storyline ct with
      | .error e => .error e
      | .ok (chapter, st1) =>
        match jsIndex chapterTitles i with
        | .error e => .error e
        | .ok ct2 =>
          match objectKeys ct2 with
          | .error e => .error e
          | .ok ks =>
            chaptersLoop env fuel storyline chapterTitles n (i + 1)
              (novel ++ "Chapter ".data ++ natChars (i + 1) ++ ":\n".data ++
                chapter ++ "\n".data)
              (chapters ++ [chapter])
              (chapterObjects ++ [(ks.headD "undefined".data, chapter)])
              st1

/-- `writeFantasyNovel` (src/generateNovel.js:314-365). -/
def writeFantasyNovel (env : Env) (fuel : Nat) (prompt : List Char)
    (numChapters : Nat) (writingStyle : List Char) (st0 : CallState) :
    Except RunErr (NovelResult × CallState) :=
  match generatePlots env st0 prompt with
  | .error e => .error (.call e)
  | .ok (plots, st1) =>
    match selectMostEngaging env st1 plots with
    | .error e => .error (.call e)
    | .ok (bestPlot, st2) =>
      match improvePlot env st2 bestPlot with
      | .error e => .error (.call e)
      | .ok (improvedPlot, st3) =>
        match getTitle env st3 improvedPlot with
        | .error e => .error (.call e)
        | .ok (title, st4) =>
          match generateStoryline env st4 improvedPlot numChapters with
          | .error e => .error (.call e)
          | .ok (storyline, st6) =>
            match jsIndex (parsedPlan env numChapters storyline) 0 with
            | .error e => .error e
            | .ok ct0 =>
              match writeFirstChapter env st6 storyline ct0 writingStyle with
              | .error e => .error (.call e)
              | .ok (firstChapter, st8) =>
                match jsIndex (parsedPlan env numChapters storyline) 0 with
                | .error e => .error e
                | .ok ct0b =>
                  match objectKeys ct0b with
                  | .error e => .error e
                  | .ok ks0 =>
                    match chaptersLoop env fuel storyline
                        (parsedPlan env numChapters storyline)
                        (numChapters - 1) 1
                        ("Storyline:\n".data ++ storyline ++ "\n\n".data ++
                          "Chapter 1:\n".data ++ firstChapter ++ "\n".data)
                        [firstChapter]
                        [(ks0.headD "undefined".data, firstChapter)] st8 with
                    | .error e => .error e
                    | .ok (novel, chapters, chapterObjects, stF) =>
                      .ok ({ novel := novel, title := title,
                             chapters := chapters,
                             chapterObjects := chapterObjects }, stF)

/-- The externally visible artifacts `main` can produce. -/
inductive Action where
  | writeFile : List Char → List Char → Action
  | coverImage : Action
  | epub : List Char → Action

/-- `writeToFile` filename sanitisation (264-266):
`prompt.replace(/[^a-z0-9._ ]/gi, '').trim()`. -/
def validFilename (prompt : List Char) : List Char :=
  trimStr (prompt.filter (fun c =>
    c.isAlpha || c.isDigit || c == '.' || c == '_' || c == ' '))

/-- `main` (368-391) observed through its external effects: when the
pipeline throws, the catch block only logs, so no artifact is produced; on
success the manuscript is written, then `createCoverImage` runs its one
generation call (`generateCoverPrompt`) on the stringified chapter records,
then the EPUB is assembled. -/
def mainActions (env : Env) (fuel : Nat) (prompt : List Char)
    (numChapters : Nat) (writingStyle : List Char) : List Action :=
  match writeFantasyNovel env fuel prompt numChapters writingStyle ⟨0, []⟩ with
  | .error _ => []
  | .ok (res, st) =>
    match callOllama env st (generateCoverPromptText (jsonStringify
        (.arr (res.chapterObjects.map (fun kc => .obj [(kc.1, .str kc.2)]))))) with
    | .error _ => [.writeFile (validFilename prompt) res.novel]
    | .ok _ =>
      [.writeFile (validFilename prompt) res.novel, .coverImage, .epub res.title]

/-- The numbered `Chapter <m>:` blocks of the manuscript, in order. -/
def chapterBlocks : Nat → List (List Char) → List Char
  | _, [] => []
  | m, c :: cs =>
    "Chapter ".data ++ natChars m ++ ":\n".data ++ c ++ "\n".data ++
      chapterBlocks (m + 1) cs

/-- The manuscript: the storyline header followed by the chapter blocks. -/
def mkManuscript (storyline : List Char) (chs : List (List Char)) : List Char :=
  "Storyline:\n".data ++ storyline ++ "\n\n".data ++ chapterBlocks 1 chs

theorem chapterBlocks_snoc (m : Nat) (chs : List (List Char)) (c : List Char) :
    chapterBlocks m (chs ++ [c]) = chapterBlocks m chs ++
      ("Chapter ".data ++ natChars (m + chs.length) ++ ":\n".data ++ c ++ "\n".data) := by
  induction chs generalizing m with
  | nil => simp [chapterBlocks]
  | cons x xs ih =>
    rw [List.cons_append, chapterBlocks, chapterBlocks, ih (m + 1)]
    have harg : m + 1 + xs.length = m + (x :: xs).length := by
      simp
      omega
    rw [harg]
    simp

theorem mkManuscript_snoc (storyline : List Char) (chs : List (List Char))
    (c : List Char) :
    mkManuscript storyline (chs ++ [c]) = mkManuscript storyline chs ++
      ("Chapter ".data ++ natChars (chs.length + 1) ++ ":\n".data ++ c ++ "\n".data) := by
  rw [mkManuscript, mkManuscript, chapterBlocks_snoc]
  have harg : 1 + chs.length = chs.length + 1 := by omega
  rw [harg]
  simp

theorem mkManuscript_one (storyline fc : List Char) :
    "Storyline:\n".data ++ storyline ++ "\n\n".data ++
      "Chapter 1:\n".data ++ fc ++ "\n".data = mkManuscript storyline [fc] := by
  rw [mkManuscript, chapterBlocks, chapterBlocks]
  rw [show "Chapter ".data ++ natChars 1 ++ ":\n".data = "Chapter 1:\n".data by decide]
  simp

theorem objectKeys_eq_ok {v : JsValue} (h : isNullOrUndef v = false) :
    objectKeys v = .ok (objectKeysD v) := by
  cases v <;> first | rfl | exact absurd h (by simp [isNullOrUndef])

theorem jsIndex_eq_ok {v : JsValue} (h : isNullOrUndef v = false) (i : Nat) :
    jsIndex v i = .ok (jsIndexD v i) := by
  cases v <;> first | rfl | exact absurd h (by simp [isNullOrUndef])

theorem callOllama_resp {env : Env} {resp : Nat → List Char}
    (hresp : ∀ k, env.responses k = .ok (resp k)) (st : CallState)
    (p : List Char) :
    callOllama env st p = .ok (parseOllamaResponse (resp st.k),
      ⟨st.k + 1, st.trace ++ [languageInstruction ++ p]⟩) := by
  rw [callOllama, hresp st.k]

theorem writeChapter_ok_first {env : Env} {resp : Nat → List Char}
    (hresp : ∀ k, env.responses k = .ok (resp k)) (fuel : Nat) (st : CallState)
    (prev plot : List Char) (ct : JsValue) (hct : isNullOrUndef ct = false)
    (hlong : 1000 ≤ (parseOllamaResponse (resp st.k)).length) :
    writeChapter env (fuel + 1) st prev plot ct =
      .ok (parseOllamaResponse (resp st.k),
        ⟨st.k + 1, st.trace ++ [languageInstruction ++
          writeChapterPrompt prev plot (jsonStringify ct)]⟩) := by
  rw [writeChapter, objectKeys_eq_ok hct, callOllama_resp hresp]
  dsimp only
  rw [if_neg (by omega)]

/-- The chapter texts produced by `n` loop iterations whose first call is
call `k`, when every response is accepted on the first attempt. -/
def loopChs (resp : Nat → List Char) (k n : Nat) : List (List Char) :=
  (List.range n).map (fun j => parseOllamaResponse (resp (k + j)))

/-- The chapter records those iterations append. -/
def loopRecs (resp : Nat → List Char) (v : JsValue) (k i n : Nat) :
    List (List Char × List Char) :=
  (List.range n).map (fun j =>
    (planKey (jsIndexD v (i + j)), parseOllamaResponse (resp (k + j))))

/-- The prompts those iterations send: each embeds the manuscript as built
from the chapters completed so far. -/
def loopPrompts (resp : Nat → List Char) (storyline : List Char) (v : JsValue)
    (chapters : List (List Char)) (k i n : Nat) : List (List Char) :=
  (List.range n).map (fun j =>
    languageInstruction ++ writeChapterPrompt
      (mkManuscript storyline (chapters ++ loopChs resp k j)) storyline
      (jsonStringify (jsIndexD v (i + j))))

theorem loopChs_succ (resp : Nat → List Char) (k n : Nat) :
    loopChs resp k (n + 1) =
      parseOllamaResponse (resp k) :: loopChs resp (k + 1) n := by
  rw [loopChs, loopChs, List.range_succ_eq_map, List.map_cons, List.map_map]
  refine congrArg₂ List.cons rfl ?_
  refine List.map_congr_left ?_
  intro j _
  show parseOllamaResponse (resp (k + (j + 1))) =
    parseOllamaResponse (resp (k + 1 + j))
  rw [show k + (j + 1) = k + 1 + j by omega]

theorem loopRecs_succ (resp : Nat → List Char) (v : JsValue) (k i n : Nat) :
    loopRecs resp v k i (n + 1) =
      (planKey (jsIndexD v i), parseOllamaResponse (resp k)) ::
        loopRecs resp v (k + 1) (i + 1) n := by
  rw [loopRecs, loopRecs, List.range_succ_eq_map, List.map_cons, List.map_map]
  refine congrArg₂ List.cons rfl ?_
  refine List.map_congr_left ?_
  intro j _
  show (planKey (jsIndexD v (i + (j + 1))),
      parseOllamaResponse (resp (k + (j + 1)))) =
    (planKey (jsIndexD v (i + 1 + j)), parseOllamaResponse (resp (k + 1 + j)))
  rw [show i + (j + 1) = i + 1 + j by omega, show k + (j + 1) = k + 1 + j by omega]

theorem loopPrompts_succ (resp : Nat → List Char) (storyline : List Char)
    (v : JsValue) (chapters : List (List Char)) (k i n : Nat) :
    loopPrompts resp storyline v chapters k i (n + 1) =
      (languageInstruction ++ writeChapterPrompt (mkManuscript storyline chapters)
        storyline (jsonStringify (jsIndexD v i))) ::
      loopPrompts resp storyline v (chapters ++ [parseOllamaResponse (resp k)])
        (k + 1) (i + 1) n := by
  rw [loopPrompts, loopPrompts, List.range_succ_eq_map, List.map_cons, List.map_map]
  have harg : ∀ j : Nat, chapters ++ loopChs resp k (j + 1) =
      (chapters ++ [parseOllamaResponse (resp k)]) ++ loopChs resp (k + 1) j := by
    intro j
    rw [loopChs_succ]
    simp
  refine congrArg₂ List.cons ?_ ?_
  · show languageInstruction ++ writeChapterPrompt
      (mkManuscript storyline (chapters ++ loopChs resp k 0)) storyline
      (jsonStringify (jsIndexD v (i + 0))) = _
    rw [show chapters ++ loopChs resp k 0 = chapters by simp [loopChs],
      show i + 0 = i by omega]
  · refine List.map_congr_left ?_
    intro j _
    show languageInstruction ++ writeChapterPrompt
      (mkManuscript storyline (chapters ++ loopChs resp k (j + 1))) storyline
      (jsonStringify (jsIndexD v (i + (j + 1)))) = _
    rw [harg j, show i + (j + 1) = i + 1 + j by omega]

theorem chaptersLoop_ok_of {env : Env} {resp : Nat → List Char}
    (hresp : ∀ k, env.responses k = .ok (resp k))
    (hlong : ∀ k, 1000 ≤ (parseOllamaResponse (resp k)).length)
    (fuel : Nat) (storyline : List Char) (v : JsValue)
    (hv : isNullOrUndef v = false) :
    ∀ (n i : Nat) (chapters : List (List Char))
      (objs : List (List Char × List Char)) (st : CallState),
      i = chapters.length →
      (∀ j, j < n → isNullOrUndef (jsIndexD v (i + j)) = false) →
      chaptersLoop env (fuel + 1) storyline v n i
        (mkManuscript storyline chapters) chapters objs st =
      .ok (mkManuscript storyline (chapters ++ loopChs resp st.k n),
        chapters ++ loopChs resp st.k n,
        objs ++ loopRecs resp v st.k i n,
        ⟨st.k + n, st.trace ++ loopPrompts resp storyline v chapters st.k i n⟩) := by
  intro n
  induction n with
  | zero =>
    intro i chapters objs st _ _
    simp [chaptersLoop, loopChs, loopRecs, loopPrompts]
  | succ n ih =>
    intro i chapters objs st hic hj
    have hct : isNullOrUndef (jsIndexD v i) = false := by
      have := hj 0 (by omega)
      rw [show i + 0 = i by omega] at this
      exact this
    rw [chaptersLoop, jsIndex_eq_ok hv]
    dsimp only
    rw [writeChapter_ok_first hresp fuel st _ _ _ hct (hlong st.k)]
    dsimp only
    rw [objectKeys_eq_ok hct]
    dsimp only
    have hnovel : mkManuscript storyline chapters ++ "Chapter ".data ++
        natChars (i + 1) ++ ":\n".data ++ parseOllamaResponse (resp st.k) ++
        "\n".data = mkManuscript storyline
          (chapters ++ [parseOllamaResponse (resp st.k)]) := by
      rw [mkManuscript_snoc, hic]
      simp
    rw [hnovel]
    have hkey : (objectKeysD (jsIndexD v i)).headD "undefined".data =
        planKey (jsIndexD v i) := rfl
    rw [hkey]
    have hic2 : i + 1 = (chapters ++ [parseOllamaResponse (resp st.k)]).length := by
      simp [hic]
    have hj2 : ∀ j, j < n → isNullOrUndef (jsIndexD v (i + 1 + j)) = false := by
      intro j hjn
      have := hj (j + 1) (by omega)
      rw [show i + (j + 1) = i + 1 + j by omega] at this
      exact this
    rw [ih (i + 1) (chapters ++ [parseOllamaResponse (resp st.k)])
      (objs ++ [(planKey (jsIndexD v i), parseOllamaResponse (resp st.k))])
      ⟨st.k + 1, st.trace ++ [languageInstruction ++ writeChapterPrompt
        (mkManuscript storyline chapters) storyline
        (jsonStringify (jsIndexD v i))]⟩ hic2 hj2]
    rw [loopChs_succ, loopRecs_succ, loopPrompts_succ]
    simp [List.append_assoc, show st.k + 1 + n = st.k + (n + 1) by omega]

/-- The storyline text of a run whose first six calls answer with
`resp 0 .. resp 5`. -/
def storylineOf (resp : Nat → List Char) : List Char :=
  extractJsonFromMarkdown (parseOllamaResponse (resp 5))

theorem writeFantasyNovel_ok_of (env : Env) (resp : Nat → List Char)
    (hresp : ∀ k, env.responses k = .ok (resp k))
    (hlong : ∀ k, 1000 ≤ (parseOllamaResponse (resp k)).length)
    (fuel : Nat) (p : List Char) (N : Nat) (ws : List Char) {v : JsValue}
    (hN : 1 ≤ N)
    (hv : parsedPlan env N (storylineOf resp) = v)
    (hvn : isNullOrUndef v = false)
    (hj : ∀ j, j < N → isNullOrUndef (jsIndexD v j) = false) :
    writeFantasyNovel env (fuel + 1) p N ws ⟨0, []⟩ =
      .ok ({ novel := mkManuscript (storylineOf resp)
               (parseOllamaResponse (resp 7) :: loopChs resp 8 (N - 1)),
             title := parseOllamaResponse (resp 3),
             chapters := parseOllamaResponse (resp 7) :: loopChs resp 8 (N - 1),
             chapterObjects :=
               (planKey (jsIndexD v 0), parseOllamaResponse (resp 7)) ::
                 loopRecs resp v 8 1 (N - 1) },
        ⟨8 + (N - 1),
          [languageInstruction ++ generatePlotsPrompt p,
           languageInstruction ++ selectMostEngagingPrompt
             (joinComma (splitNl (parseOllamaResponse (resp 0)))),
           languageInstruction ++ improvePlotPrompt (parseOllamaResponse (resp 1)),
           languageInstruction ++ getTitlePrompt (parseOllamaResponse (resp 2)),
           languageInstruction ++ generateStorylinePrompt
             (parseOllamaResponse (resp 2)) N,
           languageInstruction ++ improveStorylinePrompt
             (parseOllamaResponse (resp 4)),
           languageInstruction ++ writeFirstChapterPrompt (storylineOf resp)
             (jsToTemplate (jsIndexD v 0)) ws,
           languageInstruction ++ improveFirstChapterPrompt (storylineOf resp)
             (parseOllamaResponse (resp 6)) ws] ++
          loopPrompts resp (storylineOf resp) v [parseOllamaResponse (resp 7)]
            8 1 (N - 1)⟩) := by
  rw [storylineOf] at hv ⊢
  have hv0 : isNullOrUndef (jsIndexD v 0) = false := hj 0 (by omega)
  simp only [writeFantasyNovel, generatePlots, selectMostEngaging, improvePlot,
    getTitle, generateStoryline, writeFirstChapter, callOllama_resp hresp]
  simp only [hv, jsIndex_eq_ok hvn, objectKeys_eq_ok hv0]
  rw [mkManuscript_one]
  have hj2 : ∀ j, j < N - 1 → isNullOrUndef (jsIndexD v (1 + j)) = false := by
    intro j hjn
    exact hj (1 + j) (by omega)
  rw [chaptersLoop_ok_of hresp hlong fuel _ v hvn (N - 1) 1
    [parseOllamaResponse (resp 7)] _ _ (by simp) hj2]
  simp [planKey]

theorem callOllama_one {env : Env} {st : CallState} {r : List Char}
    (hr : env.responses st.k = .ok r) (p : List Char) :
    callOllama env st p = .ok (parseOllamaResponse r,
      ⟨st.k + 1, st.trace ++ [languageInstruction ++ p]⟩) := by
  rw [callOllama, hr]

theorem callOllama_err {env : Env} {st : CallState} {e : CallErr}
    (hr : env.responses st.k = .error e) (p : List Char) :
    callOllama env st p = .error e := by
  rw [callOllama, hr]

theorem writeChapter_ok_one {env : Env} {st : CallState} {r : List Char}
    (hr : env.responses st.k = .ok r)
    (hlen : 1000 ≤ (parseOllamaResponse r).length) (fuel : Nat)
    (prev plot : List Char) {ct : JsValue} (hct : isNullOrUndef ct = false) :
    writeChapter env (fuel + 1) st prev plot ct =
      .ok (parseOllamaResponse r,
        ⟨st.k + 1, st.trace ++ [languageInstruction ++
          writeChapterPrompt prev plot (jsonStringify ct)]⟩) := by
  rw [writeChapter, objectKeys_eq_ok hct, callOllama_one hr]
  dsimp only
  rw [if_neg (by omega)]

theorem writeChapter_callError {env : Env} {st : CallState} {e : CallErr}
    (hr : env.responses st.k = .error e) (fuel : Nat) (prev plot : List Char)
    {ct : JsValue} (hct : isNullOrUndef ct = false) :
    writeChapter env (fuel + 1) st prev plot ct = .error (.call e) := by
  rw [writeChapter, objectKeys_eq_ok hct, callOllama_err hr]

theorem writeChapter_typeError {env : Env} (fuel : Nat) (st : CallState)
    (prev plot : List Char) (ct : JsValue) (h : isNullOrUndef ct = true) :
    writeChapter env (fuel + 1) st prev plot ct = .error .typeError := by
  cases ct <;> first | rfl | exact absurd h (by simp [isNullOrUndef])

theorem getD_map_range {α : Type} (f : Nat → α) (d : α) {n j : Nat}
    (h : j < n) : ((List.range n).map f).getD j d = f j := by
  rw [List.getD_eq_getElem?_getD, List.getElem?_map, List.getElem?_range h]
  rfl

theorem fallbackPlan_getD {N j : Nat} (h : j < N) :
    (fallbackPlan N).getD j .undef =
      .obj [("Chapter ".data ++ natChars (j + 1) ++ " - Untitled".data,
        .str ("This is chapter ".data ++ natChars (j + 1)))] := by
  rw [fallbackPlan, getD_map_range _ _ h]

theorem fallbackPlan_entry_ok {N j : Nat} (h : j < N) :
    isNullOrUndef (jsIndexD (.arr (fallbackPlan N)) j) = false := by
  show isNullOrUndef ((fallbackPlan N).getD j .undef) = false
  rw [fallbackPlan_getD h]
  rfl

theorem fallbackPlan_planKey {N j : Nat} (h : j < N) :
    planKey (jsIndexD (.arr (fallbackPlan N)) j) =
      "Chapter ".data ++ natChars (j + 1) ++ " - Untitled".data := by
  show planKey ((fallbackPlan N).getD j .undef) = _
  rw [fallbackPlan_getD h]
  rfl

/-- A concrete 1000-character acceptable response. -/
def longA : List Char := List.replicate 1000 'a'

theorem longA_no_lt : '<' ∉ longA := by
  intro h
  exact absurd (List.eq_of_mem_replicate h) (by decide)

theorem parseOllamaResponse_longA : parseOllamaResponse longA = longA := by
  rw [parseOllamaResponse_of_not_mem_lt longA_no_lt]
  apply trimStr_eq_self
  · intro c hc
    rw [longA, show (1000 : Nat) = 999 + 1 from rfl, List.replicate_succ] at hc
    injection hc with hc
    subst hc
    rfl
  · intro c hc
    rw [longA, ← List.head?_reverse, List.reverse_replicate,
      show (1000 : Nat) = 999 + 1 from rfl, List.replicate_succ] at hc
    injection hc with hc
    subst hc
    rfl

theorem longA_long : 1000 ≤ (parseOllamaResponse longA).length := by
  rw [parseOllamaResponse_longA, longA, List.length_replicate]

theorem loopChs_take {resp : Nat → List Char} {k : Nat} {j n : Nat} (h : j ≤ n) :
    (loopChs resp k n).take j = loopChs resp k j := by
  rw [loopChs, loopChs, ← List.map_take, List.take_range, Nat.min_eq_left h]

/-- Fuel monotonicity of the retry loop: once `writeChapter` returns a
result within some fuel bound, any larger bound returns the same result
(the fuel only embeds the source's unbounded self-recursion). -/
theorem writeChapter_mono {env : Env} (g : Nat) :
    ∀ (fuel : Nat) {st : CallState} {prev plot : List Char} {ct : JsValue}
      {r : List Char × CallState},
      writeChapter env fuel st prev plot ct = .ok r →
      writeChapter env (fuel + g) st prev plot ct = .ok r := by
  intro fuel
  induction fuel with
  | zero =>
    intro st prev plot ct r h
    rw [writeChapter] at h
    exact absurd h (by simp)
  | succ f ih =>
    intro st prev plot ct r h
    rw [show f + 1 + g = f + g + 1 by omega]
    rw [writeChapter] at h ⊢
    cases hks : objectKeys ct with
    | error e =>
      rw [hks] at h
      exact absurd h (by simp)
    | ok ks =>
      rw [hks] at h
      cases hc : callOllama env st
          (writeChapterPrompt prev plot (jsonStringify ct)) with
      | error e =>
        rw [hc] at h
        exact absurd h (by simp)
      | ok rs =>
        obtain ⟨response, st1⟩ := rs
        rw [hc] at h
        dsimp only at h ⊢
        by_cases hlen : response.length < 1000
        · rw [if_pos hlen] at h ⊢
          exact ih h
        · rw [if_neg hlen] at h ⊢
          exact h

/-- Fuel monotonicity of the chapter loop. -/
theorem chaptersLoop_mono {env : Env} (g : Nat) (storyline : List Char)
    (v : JsValue) :
    ∀ (n : Nat) {fuel i : Nat} {novel : List Char}
      {chapters : List (List Char)} {objs : List (List Char × List Char)}
      {st : CallState}
      {r : List Char × List (List Char) × List (List Char × List Char) × CallState},
      chaptersLoop env fuel storyline v n i novel chapters objs st = .ok r →
      chaptersLoop env (fuel + g) storyline v n i novel chapters objs st = .ok r := by
  intro n
  induction n with
  | zero =>
    intro fuel i novel chapters objs st r h
    rw [chaptersLoop] at h ⊢
    exact h
  | succ n ih =>
    intro fuel i novel chapters objs st r h
    rw [chaptersLoop] at h ⊢
    cases hidx : jsIndex v i with
    | error e =>
      rw [hidx] at h
      exact absurd h (by simp)
    | ok ct =>
      rw [hidx] at h
      dsimp only at h ⊢
      cases hw : writeChapter env fuel st novel storyline ct with
      | error e =>
        rw [hw] at h
        dsimp only at h
        exact absurd h (by simp)
      | ok cs =>
        obtain ⟨chapter, st1⟩ := cs
        rw [hw] at h
        rw [writeChapter_mono g fuel hw]
        dsimp only at h ⊢
        cases hks : objectKeys ct with
        | error e =>
          rw [hks] at h
          exact absurd h (by simp)
        | ok ks =>
          rw [hks] at h
          dsimp only at h ⊢
          exact ih h

/-- If some response from call `st.k + M` on is long enough, the retry
loop of `writeChapter` terminates within `M + 1` attempts. -/
theorem writeChapter_ok_ev {env : Env} {resp : Nat → List Char}
    (hresp : ∀ k, env.responses k = .ok (resp k)) :
    ∀ (M : Nat) (st : CallState) (prev plot : List Char) (ct : JsValue),
      isNullOrUndef ct = false →
      1000 ≤ (parseOllamaResponse (resp (st.k + M))).length →
      ∃ ch st1, writeChapter env (M + 1) st prev plot ct = .ok (ch, st1) := by
  intro M
  induction M with
  | zero =>
    intro st prev plot ct hct hM
    exact ⟨_, _, writeChapter_ok_first hresp 0 st prev plot ct hct hM⟩
  | succ M ih =>
    intro st prev plot ct hct hM
    by_cases hlen : (parseOllamaResponse (resp st.k)).length < 1000
    · have hstep : writeChapter env (M + 1 + 1) st prev plot ct =
          writeChapter env (M + 1) ⟨st.k + 1, st.trace ++ [languageInstruction ++
            writeChapterPrompt prev plot (jsonStringify ct)]⟩ prev plot ct := by
        rw [writeChapter, objectKeys_eq_ok hct, callOllama_resp hresp]
        dsimp only
        rw [if_pos hlen]
      rw [hstep]
      refine ih ⟨st.k + 1, st.trace ++ [languageInstruction ++
        writeChapterPrompt prev plot (jsonStringify ct)]⟩ prev plot ct hct ?_
      show 1000 ≤ (parseOllamaResponse (resp (st.k + 1 + M))).length
      rw [show st.k + 1 + M = st.k + (M + 1) by omega]
      exact hM
    · push_neg at hlen
      exact ⟨_, _, writeChapter_ok_first hresp (M + 1) st prev plot ct hct hlen⟩

/-- If every call succeeds and, from every call index on, some later
response is long enough, the chapter loop completes at some fuel bound. -/
theorem chaptersLoop_ok_ex {env : Env} {resp : Nat → List Char}
    (hresp : ∀ k, env.responses k = .ok (resp k))
    (hev : ∀ k, ∃ m, 1000 ≤ (parseOllamaResponse (resp (k + m))).length)
    (storyline : List Char) {v : JsValue} (hv : isNullOrUndef v = false) :
    ∀ (n i : Nat) {novel : List Char} {chapters : List (List Char)}
      {objs : List (List Char × List Char)} {st : CallState},
      (∀ j, j < n → isNullOrUndef (jsIndexD v (i + j)) = false) →
      ∃ fuel r, chaptersLoop env fuel storyline v n i novel chapters objs st =
        .ok r := by
  intro n
  induction n with
  | zero =>
    intro i novel chapters objs st _
    exact ⟨0, (novel, chapters, objs, st), by rw [chaptersLoop]⟩
  | succ n ih =>
    intro i novel chapters objs st hj
    have hct : isNullOrUndef (jsIndexD v i) = false := by
      have h0 := hj 0 (by omega)
      rw [show i + 0 = i by omega] at h0
      exact h0
    obtain ⟨m, hm⟩ := hev st.k
    obtain ⟨ch, st1, hwc⟩ := writeChapter_ok_ev hresp m st novel storyline
      (jsIndexD v i) hct hm
    have hj2 : ∀ j, j < n → isNullOrUndef (jsIndexD v (i + 1 + j)) = false := by
      intro j hjn
      have h1 := hj (j + 1) (by omega)
      rw [show i + (j + 1) = i + 1 + j by omega] at h1
      exact h1
    obtain ⟨fuel2, r, hloop⟩ := @ih (i + 1)
      (novel ++ "Chapter ".data ++ natChars (i + 1) ++ ":\n".data ++ ch ++ "\n".data)
      (chapters ++ [ch])
      (objs ++ [((objectKeysD (jsIndexD v i)).headD "undefined".data, ch)])
      st1 hj2
    refine ⟨m + 1 + fuel2, r, ?_⟩
    rw [chaptersLoop, jsIndex_eq_ok hv]
    dsimp only
    rw [writeChapter_mono fuel2 (m + 1) hwc]
    dsimp only
    rw [objectKeys_eq_ok hct]
    dsimp only
    rw [show m + 1 + fuel2 = fuel2 + (m + 1) by omega]
    exact chaptersLoop_mono (m + 1) storyline v n hloop

/-- If every call succeeds, from every call index on some later response
is long enough, and the plan's first `N` entries are defined, the whole
pipeline completes at some fuel bound. -/
theorem writeFantasyNovel_ok_ex {env : Env} {resp : Nat → List Char}
    (hresp : ∀ k, env.responses k = .ok (resp k))
    (hev : ∀ k, ∃ m, 1000 ≤ (parseOllamaResponse (resp (k + m))).length)
    (p : List Char) (N : Nat) (ws : List Char) (hN : 1 ≤ N) {v : JsValue}
    (hv : parsedPlan env N (storylineOf resp) = v)
    (hvn : isNullOrUndef v = false)
    (hj : ∀ j, j < N → isNullOrUndef (jsIndexD v j) = false) :
    ∃ fuel res stF, writeFantasyNovel env fuel p N ws ⟨0, []⟩ = .ok (res, stF) := by
  have hv0 : isNullOrUndef (jsIndexD v 0) = false := hj 0 (by omega)
  have hj2 : ∀ j, j < N - 1 → isNullOrUndef (jsIndexD v (1 + j)) = false :=
    fun j hjn => hj (1 + j) (by omega)
  obtain ⟨fuel, ⟨nv, chs, os, stF1⟩, hloop⟩ :=
    chaptersLoop_ok_ex hresp hev
      (extractJsonFromMarkdown (parseOllamaResponse (resp 5))) hvn (N - 1) 1 hj2
  refine ⟨fuel, ⟨nv, parseOllamaResponse (resp 3), chs, os⟩, stF1, ?_⟩
  rw [storylineOf] at hv
  simp only [writeFantasyNovel, generatePlots, selectMostEngaging, improvePlot,
    getTitle, generateStoryline, writeFirstChapter, callOllama_resp hresp]
  simp only [hv, jsIndex_eq_ok hvn, objectKeys_eq_ok hv0]
  rw [hloop]

/-- With every response accepted but shorter than 1000 characters, the
retry loop of `writeChapter` runs out of any amount of fuel. -/
theorem writeChapter_noFuel {env : Env} {resp : Nat → List Char}
    (hresp : ∀ k, env.responses k = .ok (resp k))
    (hshort : ∀ k, (parseOllamaResponse (resp k)).length < 1000) :
    ∀ (fuel : Nat) (st : CallState) (prev plot : List Char) {ct : JsValue},
      isNullOrUndef ct = false →
      writeChapter env fuel st prev plot ct = .error .noFuel := by
  intro fuel
  induction fuel with
  | zero =>
    intro st prev plot ct hct
    rw [writeChapter]
  | succ f ih =>
    intro st prev plot ct hct
    rw [writeChapter, objectKeys_eq_ok hct, callOllama_resp hresp]
    dsimp only
    rw [if_pos (hshort st.k)]
    exact ih _ prev plot hct

/-- With every response accepted but short, a chapter loop with at least
one remaining iteration runs out of any amount of fuel. -/
theorem chaptersLoop_noFuel {env : Env} {resp : Nat → List Char}
    (hresp : ∀ k, env.responses k = .ok (resp k))
    (hshort : ∀ k, (parseOllamaResponse (resp k)).length < 1000)
    (storyline : List Char) {v : JsValue} (hv : isNullOrUndef v = false)
    (fuel n i : Nat) (hct : isNullOrUndef (jsIndexD v i) = false)
    (novel : List Char) (chapters : List (List Char))
    (objs : List (List Char × List Char)) (st : CallState) :
    chaptersLoop env fuel storyline v (n + 1) i novel chapters objs st =
      .error .noFuel := by
  rw [chaptersLoop, jsIndex_eq_ok hv]
  dsimp only
  rw [writeChapter_noFuel hresp hshort fuel st novel storyline hct]

/-- With every response accepted but short and at least two chapters
requested, the run never completes: the second chapter's retry loop
exhausts every fuel bound. -/
theorem writeFantasyNovel_noFuel {env : Env} {resp : Nat → List Char}
    (hresp : ∀ k, env.responses k = .ok (resp k))
    (hshort : ∀ k, (parseOllamaResponse (resp k)).length < 1000)
    (p : List Char) (N : Nat) (ws : List Char) (hN : 2 ≤ N) {v : JsValue}
    (hv : parsedPlan env N (storylineOf resp) = v)
    (hvn : isNullOrUndef v = false)
    (hv0 : isNullOrUndef (jsIndexD v 0) = false)
    (hv1 : isNullOrUndef (jsIndexD v 1) = false) (fuel : Nat) :
    writeFantasyNovel env fuel p N ws ⟨0, []⟩ = .error .noFuel := by
  rw [storylineOf] at hv
  simp only [writeFantasyNovel, generatePlots, selectMostEngaging, improvePlot,
    getTitle, generateStoryline, writeFirstChapter, callOllama_resp hresp]
  simp only [hv, jsIndex_eq_ok hvn, objectKeys_eq_ok hv0]
  rw [show N - 1 = N - 2 + 1 by omega]
  rw [chaptersLoop_noFuel hresp hshort (extractJsonFromMarkdown
    (parseOllamaResponse (resp 5))) hvn fuel (N - 2) 1 hv1 _ _ _ _]

def envW1 : Env := ⟨fun _ => .ok longA, fun _ => none⟩

/-- Claim C3: whenever JSON.parse of the storyline text throws, the
substituted fallback plan has exactly numChapters entries, and for every i
from 1 to numChapters entry i is the single-key object mapping
"Chapter i - Untitled" to the overview "This is chapter i". -/
theorem parsedPlan_fallback_spec (env : Env) (numChapters : Nat)
    (s : List Char) (hparse : env.jsonParse s = none) (i : Nat)
    (h1 : 1 ≤ i) (h2 : i ≤ numChapters) :
    parsedPlan env numChapters s = .arr (fallbackPlan numChapters) ∧
    (fallbackPlan numChapters).length = numChapters ∧
    (fallbackPlan numChapters).getD (i - 1) .undef =
      .obj [("Chapter ".data ++ natChars i ++ " - Untitled".data,
        .str ("This is chapter ".data ++ natChars i))] := by
  refine ⟨by rw [parsedPlan, hparse],
    by rw [fallbackPlan, List.length_map, List.length_range], ?_⟩
  rw [fallbackPlan_getD (by omega), show i - 1 + 1 = i by omega]

def envW3 : Env := ⟨fun _ => .ok [], fun _ => none⟩

/-- Claim C3 witness: a concrete failing parse, two chapters, entry 1. -/
theorem parsedPlan_fallback_spec_witness :
    envW3.jsonParse "not json".data = none ∧ (1 : Nat) ≤ 1 ∧ (1 : Nat) ≤ 2 ∧
    (parsedPlan envW3 2 "not json".data = .arr (fallbackPlan 2) ∧
     (fallbackPlan 2).length = 2 ∧
     (fallbackPlan 2).getD (1 - 1) .undef =
       .obj [("Chapter ".data ++ natChars 1 ++ " - Untitled".data,
         .str ("This is chapter ".data ++ natChars 1))]) :=
  ⟨rfl, by omega, by omega,
    parsedPlan_fallback_spec envW3 2 "not json".data rfl 1 (by omega) (by omega)⟩

/-- Claim C10: when the storyline fails to parse, the fallback replaces
only the chapter keys and overviews: the raw unparseable storyline text is
still what follows the manuscript's "Storyline:" header (the manuscript is
built from it, not from the fallback plan), it is still the plot argument
of the first-chapter prompt, and it is still the plot argument of every
subsequent chapter prompt; the fallback entries appear only as the
chapter-title / plan-JSON arguments. -/
theorem fallback_keeps_raw_storyline {env : Env} {resp : Nat → List Char}
    (hresp : ∀ k, env.responses k = .ok (resp k))
    (hlong : ∀ k, 1000 ≤ (parseOllamaResponse (resp k)).length)
    (fuel : Nat) (p : List Char) (N : Nat) (ws : List Char) (hN : 1 ≤ N)
    (hparse : env.jsonParse (storylineOf resp) = none) :
    ∃ res stF, writeFantasyNovel env (fuel + 1) p N ws ⟨0, []⟩ = .ok (res, stF) ∧
      res.novel = mkManuscript (storylineOf resp) res.chapters ∧
      (languageInstruction ++ writeFirstChapterPrompt (storylineOf resp)
        (jsToTemplate (jsIndexD (.arr (fallbackPlan N)) 0)) ws) ∈ stF.trace ∧
      (∀ j, j < N - 1 → (languageInstruction ++ writeChapterPrompt
        (mkManuscript (storylineOf resp) (res.chapters.take (1 + j)))
        (storylineOf resp)
        (jsonStringify (jsIndexD (.arr (fallbackPlan N)) (1 + j)))) ∈
          stF.trace) := by
  have hv : parsedPlan env N (storylineOf resp) = .arr (fallbackPlan N) := by
    rw [parsedPlan, hparse]
  have hj : ∀ j, j < N →
      isNullOrUndef (jsIndexD (.arr (fallbackPlan N)) j) = false :=
    fun j hjn => fallbackPlan_entry_ok hjn
  refine ⟨_, _, writeFantasyNovel_ok_of env resp hresp hlong fuel p N ws hN hv rfl hj,
    rfl, ?_, ?_⟩
  · apply List.mem_append_left
    simp
  · intro j hjn
    apply List.mem_append_right
    rw [loopPrompts]
    apply List.mem_map.mpr
    refine ⟨j, List.mem_range.mpr hjn, ?_⟩
    have htake : ([parseOllamaResponse (resp 7)] ++ loopChs resp 8 j) =
        ((parseOllamaResponse (resp 7) :: loopChs resp 8 (N - 1)).take (1 + j)) := by
      rw [show 1 + j = j + 1 by omega, List.take_succ_cons,
        loopChs_take (by omega)]
      rfl
    rw [htake]

def envW10 : Env := ⟨fun _ => .ok longA, fun _ => none⟩

/-- Claim C10 witness: concrete two-chapter run with unparseable
storyline. -/
theorem fallback_keeps_raw_storyline_witness :
    (∀ k, envW10.responses k = .ok ((fun _ => longA) k)) ∧
    (∀ k : Nat, 1000 ≤ (parseOllamaResponse ((fun _ => longA) k)).length) ∧
    (1 : Nat) ≤ 2 ∧
    envW10.jsonParse (storylineOf (fun _ => longA)) = none ∧
    (∃ res stF, writeFantasyNovel envW10 (0 + 1) "p".data 2 "ws".data ⟨0, []⟩ =
        .ok (res, stF) ∧
      res.novel = mkManuscript (storylineOf (fun _ => longA)) res.chapters ∧
      (languageInstruction ++ writeFirstChapterPrompt
        (storylineOf (fun _ => longA))
        (jsToTemplate (jsIndexD (.arr (fallbackPlan 2)) 0)) "ws".data) ∈
          stF.trace ∧
      (∀ j, j < 2 - 1 → (languageInstruction ++ writeChapterPrompt
        (mkManuscript (storylineOf (fun _ => longA)) (res.chapters.take (1 + j)))
        (storylineOf (fun _ => longA))
        (jsonStringify (jsIndexD (.arr (fallbackPlan 2)) (1 + j)))) ∈
          stF.trace)) :=
  ⟨fun _ => rfl, fun _ => longA_long, by omega, rfl,
    fallback_keeps_raw_storyline (fun _ => rfl) (fun _ => longA_long)
      0 "p".data 2 "ws".data (by omega) rfl⟩

def envC2 : Env := ⟨fun _ => .ok longA, fun _ =>
  some (.arr [.obj [("A".data, .str "x".data)],
              .obj [("A".data, .str "y".data)]])⟩

/-- Claim C2 counterexample: when the model's parsed plan re-uses the same
key for two entries, the run still completes successfully and both chapter
records carry the key "A" — the keys are not distinct, as nothing enforces
uniqueness. -/
theorem writeFantasyNovel_duplicate_keys :
    (writeFantasyNovel envC2 (0 + 1) "p".data 2 "ws".data ⟨0, []⟩).map
      (fun r => r.1.chapterObjects.map Prod.fst) =
        .ok ["A".data, "A".data] ∧
    ¬ (["A".data, "A".data] : List (List Char)).Nodup := by
  constructor
  · rw [writeFantasyNovel_ok_of envC2 (fun _ => longA)
      (fun _ => rfl) (fun _ => longA_long) 0 "p".data 2 "ws".data (by omega)
      rfl rfl (by intro j hj; interval_cases j <;> rfl)]
    rfl
  · decide

def envC4 : Env := ⟨fun _ => .ok longA, fun _ =>
  some (.arr [.num 1, .num 2, .num 3])⟩

/-- Claim C4 counterexample: the storyline parses to `[1, 2, 3]` — not an
array of single-key objects — for a three-chapter run, yet the run
completes instead of aborting: `Object.keys` of a number is the empty
list, so every record is keyed "undefined" but no TypeError is thrown. -/
theorem writeFantasyNovel_nonplan_completes :
    (writeFantasyNovel envC4 (0 + 1) "p".data 3 "ws".data ⟨0, []⟩).isOk = true := by
  rw [writeFantasyNovel_ok_of envC4 (fun _ => longA)
    (fun _ => rfl) (fun _ => longA_long) 0 "p".data 3 "ws".data (by omega)
    rfl rfl (by intro j hj; interval_cases j <;> rfl)]
  rfl

theorem objectKeys_typeError {v : JsValue} (h : isNullOrUndef v = true) :
    objectKeys v = .error .typeError := by
  cases v <;> first | rfl | exact absurd h (by simp [isNullOrUndef])

theorem chaptersLoop_typeError {env : Env} {resp : Nat → List Char}
    (hresp : ∀ k, env.responses k = .ok (resp k))
    (hlong : ∀ k, 1000 ≤ (parseOllamaResponse (resp k)).length)
    (fuel : Nat) (storyline : List Char) (ts : List JsValue) :
    ∀ (n i : Nat) (novel : List Char) (chapters : List (List Char))
      (objs : List (List Char × List Char)) (st : CallState),
      1 ≤ n → ts.length < i + n →
      chaptersLoop env (fuel + 1) storyline (.arr ts) n i novel chapters objs st =
        .error .typeError := by
  intro n
  induction n with
  | zero => intro i _ _ _ _ h1 _; omega
  | succ n ih =>
    intro i novel chapters objs st _ hlen
    rw [chaptersLoop, jsIndex_eq_ok (v := JsValue.arr ts) rfl]
    dsimp only
    by_cases hi : ts.length ≤ i
    · have hidx : jsIndexD (.arr ts) i = .undef := by
        show ts.getD i .undef = .undef
        rw [List.getD_eq_default _ _ hi]
      rw [hidx, writeChapter_typeError fuel st _ _ JsValue.undef rfl]
    · push_neg at hi
      cases ht : isNullOrUndef (jsIndexD (.arr ts) i) with
      | true => rw [writeChapter_typeError fuel st _ _ _ ht]
      | false =>
        rw [writeChapter_ok_one (hresp st.k) (hlong st.k) fuel _ _ ht]
        dsimp only
        rw [objectKeys_eq_ok ht]
        dsimp only
        exact ih (i + 1) _ _ _ _ (by omega) (by omega)

/-- Claim C4 (amended): if the storyline parses to an array with fewer
than numChapters entries, the fallback is NOT substituted and the run
aborts with a TypeError when the missing entry's key is read
(`Object.keys(undefined)`).  (As literally stated the claim fails for a
general "not an array of at least numChapters single-key objects" value:
e.g. the array `[1, 2, 3]` is not single-key objects, yet the run
completes, because `Object.keys` of a number is the empty list; see the
counterexample.) -/
theorem writeFantasyNovel_short_plan_typeError {env : Env}
    {resp : Nat → List Char} (hresp : ∀ k, env.responses k = .ok (resp k))
    (hlong : ∀ k, 1000 ≤ (parseOllamaResponse (resp k)).length)
    (fuel : Nat) (p : List Char) (N : Nat) (ws : List Char) (hN : 1 ≤ N)
    {ts : List JsValue}
    (hparse : env.jsonParse (storylineOf resp) = some (.arr ts))
    (hlen : ts.length < N) :
    writeFantasyNovel env (fuel + 1) p N ws ⟨0, []⟩ = .error .typeError := by
  rw [storylineOf] at hparse
  have hv : parsedPlan env N
      (extractJsonFromMarkdown (parseOllamaResponse (resp 5))) = .arr ts := by
    rw [parsedPlan, hparse]
  simp only [writeFantasyNovel, generatePlots, selectMostEngaging, improvePlot,
    getTitle, generateStoryline, writeFirstChapter, callOllama_resp hresp]
  simp only [hv, jsIndex_eq_ok (rfl : isNullOrUndef (.arr ts) = false)]
  cases h0 : isNullOrUndef (jsIndexD (.arr ts) 0) with
  | true => rw [objectKeys_typeError h0]
  | false =>
    rw [objectKeys_eq_ok h0]
    dsimp only
    have hts0 : ts ≠ [] := by
      intro hnil
      rw [hnil] at h0
      exact absurd h0 (by simp [jsIndexD, isNullOrUndef])
    have h2N : 2 ≤ N := by
      have := List.length_pos.mpr hts0
      omega
    rw [chaptersLoop_typeError hresp hlong fuel _ ts (N - 1) 1 _ _ _ _
      (by omega) (by omega)]

def envW4 : Env := ⟨fun _ => .ok longA, fun _ =>
  some (.arr [.obj [("K".data, .str "v".data)]])⟩

/-- Claim C4 witness (amended theorem): a one-entry parsed plan for a
two-chapter run aborts with a TypeError. -/
theorem writeFantasyNovel_short_plan_typeError_witness :
    (∀ k, envW4.responses k = .ok ((fun _ => longA) k)) ∧
    (∀ k : Nat, 1000 ≤ (parseOllamaResponse ((fun _ => longA) k)).length) ∧
    (1 : Nat) ≤ 2 ∧
    envW4.jsonParse (storylineOf (fun _ => longA)) =
      some (.arr [.obj [("K".data, .str "v".data)]]) ∧
    ([JsValue.obj [("K".data, .str "v".data)]].length < 2) ∧
    writeFantasyNovel envW4 (0 + 1) "p".data 2 "ws".data ⟨0, []⟩ =
      .error .typeError :=
  ⟨fun _ => rfl, fun _ => longA_long, by omega, rfl, by decide,
    writeFantasyNovel_short_plan_typeError (fun _ => rfl) (fun _ => longA_long)
      0 "p".data 2 "ws".data (by omega) rfl (by decide)⟩

theorem map_range_succ {α : Type} (f : Nat → α) (n : Nat) :
    (List.range (n + 1)).map f = f 0 :: (List.range n).map (fun j => f (j + 1)) := by
  rw [List.range_succ_eq_map, List.map_cons, List.map_map]
  rfl

theorem callOllama_ok_inv {env : Env} {st : CallState} {p t : List Char}
    {st' : CallState} (h : callOllama env st p = .ok (t, st')) :
    ∃ r, env.responses st.k = .ok r ∧ t = parseOllamaResponse r ∧
      st' = ⟨st.k + 1, st.trace ++ [languageInstruction ++ p]⟩ := by
  rw [callOllama] at h
  cases hr : env.responses st.k with
  | error e => rw [hr] at h; exact absurd h (by simp)
  | ok r =>
    rw [hr] at h
    injection h with h
    injection h with h1 h2
    exact ⟨r, rfl, h1.symm, h2.symm⟩

theorem objectKeys_ok_inv {v : JsValue} {ks : List (List Char)}
    (h : objectKeys v = .ok ks) :
    isNullOrUndef v = false ∧ ks = objectKeysD v := by
  cases v with
  | undef => exact absurd h (by simp [objectKeys])
  | null => exact absurd h (by simp [objectKeys])
  | bool b => refine ⟨rfl, ?_⟩; injection h with h; exact h.symm
  | num n => refine ⟨rfl, ?_⟩; injection h with h; exact h.symm
  | str s => refine ⟨rfl, ?_⟩; injection h with h; exact h.symm
  | arr xs => refine ⟨rfl, ?_⟩; injection h with h; exact h.symm
  | obj fs => refine ⟨rfl, ?_⟩; injection h with h; exact h.symm

theorem jsIndex_ok_inv {v : JsValue} {i : Nat} {ct : JsValue}
    (h : jsIndex v i = .ok ct) :
    isNullOrUndef v = false ∧ ct = jsIndexD v i := by
  cases v with
  | undef => exact absurd h (by simp [jsIndex])
  | null => exact absurd h (by simp [jsIndex])
  | bool b => refine ⟨rfl, ?_⟩; injection h with h; exact h.symm
  | num n => refine ⟨rfl, ?_⟩; injection h with h; exact h.symm
  | str s => refine ⟨rfl, ?_⟩; injection h with h; exact h.symm
  | arr xs => refine ⟨rfl, ?_⟩; injection h with h; exact h.symm
  | obj fs => refine ⟨rfl, ?_⟩; injection h with h; exact h.symm

theorem writeChapter_ok_inv {env : Env} :
    ∀ {fuel : Nat} {st : CallState} {prev plot : List Char} {ct : JsValue}
      {c : List Char} {st' : CallState},
      writeChapter env fuel st prev plot ct = .ok (c, st') →
      isNullOrUndef ct = false ∧
      (∃ t, st'.trace = st.trace ++ t) ∧
      (languageInstruction ++
        writeChapterPrompt prev plot (jsonStringify ct)) ∈ st'.trace ∧
      1000 ≤ c.length := by
  intro fuel
  induction fuel with
  | zero =>
    intro st prev plot ct c st' h
    rw [writeChapter] at h
    exact absurd h (by simp)
  | succ fuel ih =>
    intro st prev plot ct c st' h
    rw [writeChapter] at h
    cases hks : objectKeys ct with
    | error e => rw [hks] at h; exact absurd h (by simp)
    | ok ks =>
      rw [hks] at h
      have hct : isNullOrUndef ct = false := (objectKeys_ok_inv hks).1
      cases hcall : callOllama env st
          (writeChapterPrompt prev plot (jsonStringify ct)) with
      | error e => rw [hcall] at h; exact absurd h (by simp)
      | ok rs =>
        rw [hcall] at h
        obtain ⟨response, st1⟩ := rs
        obtain ⟨r, _, _, hst1⟩ := callOllama_ok_inv hcall
        dsimp only at h
        by_cases hlen : response.length < 1000
        · rw [if_pos hlen] at h
          obtain ⟨_, ⟨t, htr⟩, hmem, hclen⟩ := ih h
          refine ⟨hct, ⟨[languageInstruction ++
            writeChapterPrompt prev plot (jsonStringify ct)] ++ t, ?_⟩,
            hmem, hclen⟩
          rw [htr, hst1]
          simp
        · rw [if_neg hlen] at h
          injection h with h
          injection h with h1 h2
          subst h1
          subst h2
          refine ⟨hct, ⟨[languageInstruction ++
            writeChapterPrompt prev plot (jsonStringify ct)], ?_⟩, ?_, by omega⟩
          · rw [hst1]
          · rw [hst1]
            simp

theorem chaptersLoop_ok_inv {env : Env} {fuel : Nat} {storyline : List Char}
    {v : JsValue} :
    ∀ {n i : Nat} {chapters : List (List Char)}
      {objs : List (List Char × List Char)} {st : CallState}
      {nv : List Char} {chs : List (List Char)}
      {os : List (List Char × List Char)} {st' : CallState},
      chaptersLoop env fuel storyline v n i (mkManuscript storyline chapters)
        chapters objs st = .ok (nv, chs, os, st') →
      i = chapters.length →
      ∃ newChs : List (List Char),
        chs = chapters ++ newChs ∧ newChs.length = n ∧
        nv = mkManuscript storyline chs ∧
        os = objs ++ (List.range n).map (fun j =>
          (planKey (jsIndexD v (i + j)), newChs.getD j [])) ∧
        (∃ t, st'.trace = st.trace ++ t) ∧
        (∀ j, j < n → (languageInstruction ++ writeChapterPrompt
          (mkManuscript storyline (chapters ++ newChs.take j)) storyline
          (jsonStringify (jsIndexD v (i + j)))) ∈ st'.trace) := by
  intro n
  induction n with
  | zero =>
    intro i chapters objs st nv chs os st' h _
    rw [chaptersLoop] at h
    injection h with h
    injection h with h1 h
    injection h with h2 h
    injection h with h3 h4
    refine ⟨[], by rw [← h2]; simp, rfl, by rw [← h1, ← h2], ?_,
      ⟨[], by rw [← h4]; simp⟩, by intro j hj; omega⟩
    rw [← h3]
    simp
  | succ n ih =>
    intro i chapters objs st nv chs os st' h hic
    rw [chaptersLoop] at h
    cases hidx : jsIndex v i with
    | error e => rw [hidx] at h; exact absurd h (by simp)
    | ok ct =>
      rw [hidx] at h
      dsimp only at h
      cases hwc : writeChapter env fuel st (mkManuscript storyline chapters)
          storyline ct with
      | error e => rw [hwc] at h; exact absurd h (by simp)
      | ok cs1 =>
        rw [hwc] at h
        obtain ⟨chapter, st1⟩ := cs1
        dsimp only at h
        cases hks : objectKeys ct with
        | error e => rw [hks] at h; exact absurd h (by simp)
        | ok ks =>
          rw [hks] at h
          dsimp only at h
          obtain ⟨_, hctv⟩ := jsIndex_ok_inv hidx
          obtain ⟨_, hkv⟩ := objectKeys_ok_inv hks
          have hkey : ks.headD "undefined".data = planKey (jsIndexD v i) := by
            rw [hkv, hctv]
            rfl
          rw [hkey] at h
          rw [show mkManuscript storyline chapters ++ "Chapter ".data ++
              natChars (i + 1) ++ ":\n".data ++ chapter ++ "\n".data =
              mkManuscript storyline (chapters ++ [chapter]) from by
            rw [mkManuscript_snoc, hic]
            simp] at h
          obtain ⟨newChs, hchs, hlen, hnv, hos, ⟨t1, htr⟩, hmem⟩ :=
            ih h (by simp [hic])
          obtain ⟨_, ⟨t0, htr0⟩, hmem0, _⟩ := writeChapter_ok_inv hwc
          refine ⟨chapter :: newChs, by rw [hchs]; simp, by simp [hlen],
            hnv, ?_, ⟨t0 ++ t1, by rw [htr, htr0]; simp⟩, ?_⟩
          · rw [hos, map_range_succ]
            have hcong : (List.range n).map (fun j =>
                (planKey (jsIndexD v (i + 1 + j)), newChs.getD j [])) =
                (List.range n).map (fun j =>
                (planKey (jsIndexD v (i + (j + 1))),
                  (chapter :: newChs).getD (j + 1) [])) := by
              refine List.map_congr_left ?_
              intro j _
              rw [show i + 1 + j = i + (j + 1) by omega]
              rfl
            rw [hcong]
            simp
          · intro j hj
            cases j with
            | zero =>
              have hmem1 : (languageInstruction ++ writeChapterPrompt
                  (mkManuscript storyline (chapters ++ (chapter :: newChs).take 0))
                  storyline (jsonStringify (jsIndexD v (i + 0)))) ∈ st1.trace := by
                rw [show chapters ++ (chapter :: newChs).take 0 = chapters by simp,
                  show i + 0 = i by omega, ← hctv]
                exact hmem0
              rw [htr]
              exact List.mem_append_left t1 hmem1
            | succ j =>
              have := hmem j (by omega)
              rw [show (chapters ++ [chapter]) ++ newChs.take j =
                  chapters ++ (chapter :: newChs).take (j + 1) from by
                rw [List.take_succ_cons]
                simp] at this
              rw [show i + 1 + j = i + (j + 1) by omega] at this
              exact this

theorem writeFantasyNovel_ok_inv {env : Env} {fuel : Nat} {p : List Char}
    {N : Nat} {ws : List Char} {res : NovelResult} {stF : CallState}
    (h : writeFantasyNovel env fuel p N ws ⟨0, []⟩ = .ok (res, stF)) :
    ∃ storyline fc newChs,
      (∃ r5, env.responses 5 = .ok r5 ∧
        storyline = extractJsonFromMarkdown (parseOllamaResponse r5)) ∧
      res.chapters = fc :: newChs ∧
      newChs.length = N - 1 ∧
      res.novel = mkManuscript storyline res.chapters ∧
      res.chapterObjects =
        (planKey (jsIndexD (parsedPlan env N storyline) 0), fc) ::
          (List.range (N - 1)).map (fun j =>
            (planKey (jsIndexD (parsedPlan env N storyline) (1 + j)),
              newChs.getD j [])) ∧
      (∀ j, j < N - 1 → (languageInstruction ++ writeChapterPrompt
        (mkManuscript storyline (res.chapters.take (1 + j))) storyline
        (jsonStringify (jsIndexD (parsedPlan env N storyline) (1 + j)))) ∈
          stF.trace) := by
  rw [writeFantasyNovel, generatePlots] at h
  cases hc0 : callOllama env ⟨0, []⟩ (generatePlotsPrompt p) with
  | error e => rw [hc0] at h; exact absurd h (by simp)
  | ok rs0 =>
  rw [hc0] at h
  obtain ⟨t0, st1⟩ := rs0
  obtain ⟨r0, hr0, ht0, hst1⟩ := callOllama_ok_inv hc0
  subst hst1
  dsimp only at h
  rw [selectMostEngaging] at h
  cases hc1 : callOllama env _ (selectMostEngagingPrompt (joinComma (splitNl t0))) with
  | error e => rw [hc1] at h; exact absurd h (by simp)
  | ok rs1 =>
  rw [hc1] at h
  obtain ⟨t1, st2⟩ := rs1
  obtain ⟨r1, hr1, ht1, hst2⟩ := callOllama_ok_inv hc1
  subst hst2
  dsimp only at h
  rw [improvePlot] at h
  cases hc2 : callOllama env _ (improvePlotPrompt t1) with
  | error e => rw [hc2] at h; exact absurd h (by simp)
  | ok rs2 =>
  rw [hc2] at h
  obtain ⟨t2, st3⟩ := rs2
  obtain ⟨r2, hr2, ht2, hst3⟩ := callOllama_ok_inv hc2
  subst hst3
  dsimp only at h
  rw [getTitle] at h
  cases hc3 : callOllama env _ (getTitlePrompt t2) with
  | error e => rw [hc3] at h; exact absurd h (by simp)
  | ok rs3 =>
  rw [hc3] at h
  obtain ⟨t3, st4⟩ := rs3
  obtain ⟨r3, hr3, ht3, hst4⟩ := callOllama_ok_inv hc3
  subst hst4
  dsimp only at h
  rw [generateStoryline] at h
  cases hc4 : callOllama env _ (generateStorylinePrompt t2 N) with
  | error e => rw [hc4] at h; exact absurd h (by simp)
  | ok rs4 =>
  rw [hc4] at h
  obtain ⟨t4, st5⟩ := rs4
  obtain ⟨r4, hr4, ht4, hst5⟩ := callOllama_ok_inv hc4
  subst hst5
  dsimp only at h
  cases hc5 : callOllama env _ (improveStorylinePrompt t4) with
  | error e => rw [hc5] at h; exact absurd h (by simp)
  | ok rs5 =>
  rw [hc5] at h
  obtain ⟨t5, st6⟩ := rs5
  obtain ⟨r5, hr5, ht5, hst6⟩ := callOllama_ok_inv hc5
  subst hst6
  dsimp only at h
  cases hct0 : jsIndex (parsedPlan env N (extractJsonFromMarkdown t5)) 0 with
  | error e => rw [hct0] at h; exact absurd h (by simp)
  | ok ct0 =>
  rw [hct0] at h
  dsimp only at h
  rw [writeFirstChapter] at h
  cases hc6 : callOllama env _
      (writeFirstChapterPrompt (extractJsonFromMarkdown t5) (jsToTemplate ct0) ws) with
  | error e => rw [hc6] at h; exact absurd h (by simp)
  | ok rs6 =>
  rw [hc6] at h
  obtain ⟨t6, st7⟩ := rs6
  obtain ⟨r6, hr6, ht6, hst7⟩ := callOllama_ok_inv hc6
  subst hst7
  dsimp only at h
  cases hc7 : callOllama env _
      (improveFirstChapterPrompt (extractJsonFromMarkdown t5) t6 ws) with
  | error e => rw [hc7] at h; exact absurd h (by simp)
  | ok rs7 =>
  rw [hc7] at h
  obtain ⟨fc, st8⟩ := rs7
  obtain ⟨r7, hr7, ht7, hst8⟩ := callOllama_ok_inv hc7
  subst hst8
  dsimp only at h
  cases hks0 : objectKeys ct0 with
  | error e => rw [hks0] at h; exact absurd h (by simp)
  | ok ks0 =>
  rw [hks0] at h
  dsimp only at h
  obtain ⟨_, hct0v⟩ := jsIndex_ok_inv hct0
  obtain ⟨_, hks0v⟩ := objectKeys_ok_inv hks0
  have hkey0 : ks0.headD "undefined".data =
      planKey (jsIndexD (parsedPlan env N (extractJsonFromMarkdown t5)) 0) := by
    rw [hks0v, hct0v]
    rfl
  rw [hkey0, mkManuscript_one] at h
  cases hloop : chaptersLoop env fuel (extractJsonFromMarkdown t5)
      (parsedPlan env N (extractJsonFromMarkdown t5)) (N - 1) 1
      (mkManuscript (extractJsonFromMarkdown t5) [fc]) [fc]
      [(planKey (jsIndexD (parsedPlan env N (extractJsonFromMarkdown t5)) 0), fc)]
      _ with
  | error e => rw [hloop] at h; exact absurd h (by simp)
  | ok quad =>
  rw [hloop] at h
  obtain ⟨nv, chs, os, stF'⟩ := quad
  dsimp only at h
  injection h with h
  injection h with hres hstF
  obtain ⟨newChs, hchs, hlen, hnv, hos, _, hmem⟩ :=
    chaptersLoop_ok_inv hloop (by simp)
  refine ⟨extractJsonFromMarkdown t5, fc, newChs,
    ⟨r5, ?_, by rw [ht5]⟩, ?_, hlen, ?_, ?_, ?_⟩
  · exact hr5
  · rw [← hres]
    show chs = fc :: newChs
    rw [hchs]
    simp
  · rw [← hres]
    show nv = mkManuscript (extractJsonFromMarkdown t5) chs
    rw [hnv]
  · rw [← hres]
    show os = _
    rw [hos]
    have hsh : (List.range (N - 1)).map (fun j =>
        (planKey (jsIndexD (parsedPlan env N (extractJsonFromMarkdown t5)) (1 + j)),
          newChs.getD j [])) = (List.range (N - 1)).map (fun j =>
        (planKey (jsIndexD (parsedPlan env N (extractJsonFromMarkdown t5)) (1 + j)),
          newChs.getD j [])) := rfl
    simp
  · intro j hj
    rw [← hstF, ← hres]
    show (languageInstruction ++ writeChapterPrompt
      (mkManuscript (extractJsonFromMarkdown t5) (chs.take (1 + j)))
      (extractJsonFromMarkdown t5)
      (jsonStringify (jsIndexD (parsedPlan env N (extractJsonFromMarkdown t5))
        (1 + j)))) ∈ stF'.trace
    have := hmem j hj
    rw [show [fc] ++ newChs.take j = chs.take (1 + j) from by
      rw [hchs, show (1 : Nat) + j = j + 1 by omega]
      simp [List.take_succ_cons]] at this
    exact this

/-- Claim C1 (amended): for every requested chapter count N ≥ 1 and a
storyline text that fails to parse as JSON, the pipeline does not abort at
the storyline stage: it substitutes the synthetic fallback plan, proceeds
to chapter generation, and — provided every generation call succeeds and
each chapter request eventually (after finitely many length-gated retries)
receives a response of at least 1000 characters — completes, returning the
N fallback-keyed chapter records.  (As literally stated the claim fails: a
service whose calls all succeed but always return fewer than 1000
characters keeps the chapter retry loop running forever and the run never
completes at any fuel bound; see the counterexample.) -/
theorem writeFantasyNovel_fallback_completes {env : Env} {resp : Nat → List Char}
    (hresp : ∀ k, env.responses k = .ok (resp k))
    (hev : ∀ k, ∃ m, 1000 ≤ (parseOllamaResponse (resp (k + m))).length)
    (p : List Char) (N : Nat) (ws : List Char) (hN : 1 ≤ N)
    (hparse : env.jsonParse (storylineOf resp) = none) :
    ∃ fuel res stF, writeFantasyNovel env fuel p N ws ⟨0, []⟩ = .ok (res, stF) ∧
      res.chapterObjects.map Prod.fst = (List.range N).map (fun i =>
        "Chapter ".data ++ natChars (i + 1) ++ " - Untitled".data) ∧
      res.chapterObjects.length = N := by
  have hv : parsedPlan env N (storylineOf resp) = .arr (fallbackPlan N) := by
    rw [parsedPlan, hparse]
  have hj : ∀ j, j < N →
      isNullOrUndef (jsIndexD (.arr (fallbackPlan N)) j) = false :=
    fun j hjn => fallbackPlan_entry_ok hjn
  obtain ⟨fuel, res, stF, hrun⟩ :=
    writeFantasyNovel_ok_ex hresp hev p N ws hN hv rfl hj
  obtain ⟨storyline, fc, newChs, ⟨r5, hr5, hsl⟩, hchs, hlenN, hnv, hos, hmem⟩ :=
    writeFantasyNovel_ok_inv hrun
  have hsl2 : storyline = storylineOf resp := by
    have h5 := hresp 5
    rw [h5] at hr5
    injection hr5 with hr5e
    rw [hsl, storylineOf, hr5e]
  refine ⟨fuel, res, stF, hrun, ?_, ?_⟩
  · rw [hos, hsl2, hv, List.map_cons, List.map_map]
    have hrange : List.range N = List.range ((N - 1) + 1) := by
      rw [Nat.sub_add_cancel hN]
    conv_rhs => rw [hrange, map_range_succ]
    refine congrArg₂ List.cons ?_ ?_
    · show planKey (jsIndexD (.arr (fallbackPlan N)) 0) = _
      rw [fallbackPlan_planKey (by omega)]
    · refine List.map_congr_left ?_
      intro j hjm
      rw [List.mem_range] at hjm
      show planKey (jsIndexD (.arr (fallbackPlan N)) (1 + j)) = _
      rw [fallbackPlan_planKey (by omega), show 1 + j + 1 = j + 1 + 1 by omega]
  · rw [hos, List.length_cons, List.length_map, List.length_range]
    omega

/-- The witness service: call 8 — the second chapter's first attempt —
answers with the short response "x", every other call with an acceptable
1000-character response, so the retry loop actually fires once. -/
def respW1 (k : Nat) : List Char := if k = 8 then "x".data else longA

def envW1R : Env := ⟨fun k => .ok (respW1 k), fun _ => none⟩

theorem respW1_ev (k : Nat) :
    ∃ m, 1000 ≤ (parseOllamaResponse (respW1 (k + m))).length := by
  refine ⟨9 - k, ?_⟩
  have h : respW1 (k + (9 - k)) = longA := by
    show (if k + (9 - k) = 8 then "x".data else longA) = longA
    rw [if_neg (by omega)]
  rw [h]
  exact longA_long

/-- Claim C1 witness: a concrete always-succeeding service whose second
chapter request needs one retry before an acceptable response arrives,
with an unparseable storyline, two chapters. -/
theorem writeFantasyNovel_fallback_completes_witness :
    (∀ k, envW1R.responses k = .ok (respW1 k)) ∧
    (∀ k, ∃ m, 1000 ≤ (parseOllamaResponse (respW1 (k + m))).length) ∧
    (1 : Nat) ≤ 2 ∧
    envW1R.jsonParse (storylineOf respW1) = none ∧
    (∃ fuel res stF,
      writeFantasyNovel envW1R fuel "p".data 2 "ws".data ⟨0, []⟩ =
        .ok (res, stF) ∧
      res.chapterObjects.map Prod.fst = (List.range 2).map (fun i =>
        "Chapter ".data ++ natChars (i + 1) ++ " - Untitled".data) ∧
      res.chapterObjects.length = 2) :=
  ⟨fun _ => rfl, respW1_ev, by omega, rfl,
    writeFantasyNovel_fallback_completes (fun _ => rfl) respW1_ev "p".data 2
      "ws".data (by omega) rfl⟩

theorem shortX : (parseOllamaResponse "x".data).length < 1000 := by decide

/-- Claim C1 counterexample (to the literal claim): with a service whose
calls all succeed but always answer with the 1-character response "x",
the second chapter's length-gated retry loop reissues the request forever
and the run never completes: as a function of the fuel bound, the run is
the constant "out of fuel" outcome — the embedded recursion exhausts
every amount of fuel instead of returning a result. -/
theorem writeFantasyNovel_short_service_no_completion :
    (fun fuel => writeFantasyNovel ⟨fun _ => .ok "x".data, fun _ => none⟩ fuel
      "p".data 2 "ws".data ⟨0, []⟩) =
    (fun _ => Except.error RunErr.noFuel) := by
  funext fuel
  exact @writeFantasyNovel_noFuel ⟨fun _ => .ok "x".data, fun _ => none⟩
    (fun _ => "x".data) (fun _ => rfl) (fun _ => shortX) "p".data 2
    "ws".data (by omega) (.arr (fallbackPlan 2)) rfl rfl rfl rfl fuel

/-- Claim C2 (amended): a run of writeFantasyNovel that completes
successfully with requested count N ≥ 1 returns exactly N ChapterRecords
(the chapterObjects array), in plan order, record i keyed by plan entry
i's key (`Object.keys(entry)[0]`); the keys are distinct whenever the
plan's entry keys are distinct — which always holds for the fallback plan
but is not enforced for parsed plans, so "each keyed by its plan entry's
distinct key" fails in general (see the counterexample, where both records
carry the key "A"). -/
theorem writeFantasyNovel_records {env : Env} {fuel : Nat} {p : List Char}
    {N : Nat} {ws : List Char} {res : NovelResult} {stF : CallState}
    (hN : 1 ≤ N)
    (h : writeFantasyNovel env fuel p N ws ⟨0, []⟩ = .ok (res, stF)) :
    res.chapterObjects.length = N ∧
    ∃ storyline,
      (∃ r5, env.responses 5 = .ok r5 ∧
        storyline = extractJsonFromMarkdown (parseOllamaResponse r5)) ∧
      res.chapterObjects.map Prod.fst = (List.range N).map (fun i =>
        planKey (jsIndexD (parsedPlan env N storyline) i)) ∧
      (((List.range N).map (fun i =>
          planKey (jsIndexD (parsedPlan env N storyline) i))).Nodup →
        (res.chapterObjects.map Prod.fst).Nodup) := by
  obtain ⟨S, fc, newChs, hr5, hchs, hlen, hnv, hobjs, hmem⟩ :=
    writeFantasyNovel_ok_inv h
  have hkeys : res.chapterObjects.map Prod.fst = (List.range N).map (fun i =>
      planKey (jsIndexD (parsedPlan env N S) i)) := by
    rw [hobjs, List.map_cons, List.map_map]
    have hrange : List.range N = List.range ((N - 1) + 1) := by
      rw [Nat.sub_add_cancel hN]
    conv_rhs => rw [hrange, map_range_succ]
    refine congrArg₂ List.cons rfl ?_
    refine List.map_congr_left ?_
    intro j _
    show planKey (jsIndexD (parsedPlan env N S) (1 + j)) = _
    rw [show (1 : Nat) + j = j + 1 by omega]
  refine ⟨?_, S, hr5, hkeys, fun hnd => by rw [hkeys]; exact hnd⟩
  rw [hobjs, List.length_cons, List.length_map, List.length_range]
  omega

/-- Claim C2 witness: a concrete one-chapter completed run. -/
theorem writeFantasyNovel_records_witness :
    ∃ res stF,
      writeFantasyNovel envW1 (0 + 1) "p".data 1 "ws".data ⟨0, []⟩ =
        .ok (res, stF) ∧
      (res.chapterObjects.length = 1 ∧
      ∃ storyline,
        (∃ r5, envW1.responses 5 = .ok r5 ∧
          storyline = extractJsonFromMarkdown (parseOllamaResponse r5)) ∧
        res.chapterObjects.map Prod.fst = (List.range 1).map (fun i =>
          planKey (jsIndexD (parsedPlan envW1 1 storyline) i)) ∧
        (((List.range 1).map (fun i =>
            planKey (jsIndexD (parsedPlan envW1 1 storyline) i))).Nodup →
          (res.chapterObjects.map Prod.fst).Nodup)) := by
  have hrun := writeFantasyNovel_ok_of envW1 (fun _ => longA)
    (fun _ => rfl) (fun _ => longA_long) 0 "p".data 1 "ws".data (by omega) rfl
    rfl (fun j hj => fallbackPlan_entry_ok hj)
  exact ⟨_, _, hrun, writeFantasyNovel_records (by omega) hrun⟩

/-- Claim C8: in any completed run, the returned manuscript equals
"Storyline:\n" ++ storyline ++ "\n\n" followed by, for each completed
chapter i in generation order, "Chapter i:\n" ++ text ++ "\n"
(`mkManuscript`); and for every chapter after the first, the manuscript
accumulated so far (the same header plus the blocks of the chapters
completed before it) is embedded as the Previous Chapters context of that
chapter's generation prompt. -/
theorem manuscript_invariant {env : Env} {fuel : Nat} {p : List Char}
    {N : Nat} {ws : List Char} {res : NovelResult} {stF : CallState}
    (h : writeFantasyNovel env fuel p N ws ⟨0, []⟩ = .ok (res, stF)) :
    ∃ storyline,
      (∃ r5, env.responses 5 = .ok r5 ∧
        storyline = extractJsonFromMarkdown (parseOllamaResponse r5)) ∧
      res.novel = mkManuscript storyline res.chapters ∧
      (∀ i, 1 ≤ i → i < N → (languageInstruction ++
        writeChapterPrompt (mkManuscript storyline (res.chapters.take i))
        storyline
        (jsonStringify (jsIndexD (parsedPlan env N storyline) i))) ∈
          stF.trace) := by
  obtain ⟨S, fc, newChs, hr5, hchs, hlen, hnv, hobjs, hmem⟩ :=
    writeFantasyNovel_ok_inv h
  refine ⟨S, hr5, hnv, ?_⟩
  intro i h1 h2
  obtain ⟨j, rfl⟩ : ∃ j, i = 1 + j := ⟨i - 1, by omega⟩
  exact hmem j (by omega)

/-- Claim C8 witness: a concrete two-chapter completed run. -/
theorem manuscript_invariant_witness :
    ∃ res stF,
      writeFantasyNovel envW1 (0 + 1) "p".data 2 "ws".data ⟨0, []⟩ =
        .ok (res, stF) ∧
      (∃ storyline,
        (∃ r5, envW1.responses 5 = .ok r5 ∧
          storyline = extractJsonFromMarkdown (parseOllamaResponse r5)) ∧
        res.novel = mkManuscript storyline res.chapters ∧
        (∀ i, 1 ≤ i → i < 2 → (languageInstruction ++
          writeChapterPrompt (mkManuscript storyline (res.chapters.take i))
          storyline
          (jsonStringify (jsIndexD (parsedPlan envW1 2 storyline) i))) ∈
            stF.trace)) := by
  have hrun := writeFantasyNovel_ok_of envW1 (fun _ => longA)
    (fun _ => rfl) (fun _ => longA_long) 0 "p".data 2 "ws".data (by omega) rfl
    rfl (fun j hj => fallbackPlan_entry_ok hj)
  exact ⟨_, _, hrun, manuscript_invariant hrun⟩

/-- Claim C5: for every chapter after the first, `writeChapter` returns
only a response of length ≥ 1000: if the first m responses are shorter
than 1000 characters and response m is the first acceptable one, the
identical request (same previousChapters, plot and chapter plan entry) is
reissued each time — the observed trace gains m+1 copies of the very same
prompt — and the value returned is exactly response m, the first response
of length ≥ 1000, so no discarded short draft appears in the final
record.  m is arbitrary: there is no upper bound on attempts (the fuel
bound only reflects the embedding of the source's unbounded
self-recursion). -/
theorem writeChapter_retry {env : Env} {resp : Nat → List Char}
    (hresp : ∀ k, env.responses k = .ok (resp k)) :
    ∀ (m : Nat) (st : CallState) (fuel : Nat) (prev plot : List Char)
      (ct : JsValue), isNullOrUndef ct = false →
      (∀ j, j < m → (parseOllamaResponse (resp (st.k + j))).length < 1000) →
      1000 ≤ (parseOllamaResponse (resp (st.k + m))).length →
      m < fuel →
      writeChapter env fuel st prev plot ct =
        .ok (parseOllamaResponse (resp (st.k + m)),
          ⟨st.k + m + 1, st.trace ++ List.replicate (m + 1)
            (languageInstruction ++ writeChapterPrompt prev plot
              (jsonStringify ct))⟩) := by
  intro m
  induction m with
  | zero =>
    intro st fuel prev plot ct hct hshort hlong hfuel
    obtain ⟨f, rfl⟩ : ∃ f, fuel = f + 1 := ⟨fuel - 1, by omega⟩
    rw [writeChapter_ok_one (hresp st.k) (by simpa using hlong) f prev plot hct]
    rfl
  | succ m ih =>
    intro st fuel prev plot ct hct hshort hlong hfuel
    obtain ⟨f, rfl⟩ : ∃ f, fuel = f + 1 := ⟨fuel - 1, by omega⟩
    rw [writeChapter, objectKeys_eq_ok hct, callOllama_one (hresp st.k)]
    dsimp only
    rw [if_pos (by simpa using hshort 0 (by omega))]
    have hsh : ∀ j, j < m →
        (parseOllamaResponse (resp (st.k + 1 + j))).length < 1000 := by
      intro j hjm
      rw [show st.k + 1 + j = st.k + (j + 1) by omega]
      exact hshort (j + 1) (by omega)
    have hlg : 1000 ≤ (parseOllamaResponse (resp (st.k + 1 + m))).length := by
      rw [show st.k + 1 + m = st.k + (m + 1) by omega]
      exact hlong
    rw [ih ⟨st.k + 1, st.trace ++ [languageInstruction ++
      writeChapterPrompt prev plot (jsonStringify ct)]⟩ f prev plot ct hct
      hsh hlg (by omega)]
    simp [show st.k + 1 + m = st.k + (m + 1) by omega, List.replicate_succ,
      List.append_assoc]

/-- Responses of the C5 witness service: a 5-character answer to call 0,
the acceptable 1000-character answer afterwards. -/
def respC5 : Nat → List Char := fun k => if k = 0 then "short".data else longA

def envC5 : Env := ⟨fun k => .ok (respC5 k), fun _ => none⟩

/-- Claim C5 witness: one short draft, then an acceptable response. -/
theorem writeChapter_retry_witness :
    (∀ k, envC5.responses k = .ok (respC5 k)) ∧
    isNullOrUndef (JsValue.obj [("K".data, .str "v".data)]) = false ∧
    (∀ j, j < 1 →
      (parseOllamaResponse (respC5 ((⟨0, []⟩ : CallState).k + j))).length < 1000) ∧
    1000 ≤ (parseOllamaResponse (respC5 ((⟨0, []⟩ : CallState).k + 1))).length ∧
    1 < 2 ∧
    writeChapter envC5 2 ⟨0, []⟩ "prev".data "plot".data
      (JsValue.obj [("K".data, .str "v".data)]) =
      .ok (parseOllamaResponse (respC5 ((⟨0, []⟩ : CallState).k + 1)),
        ⟨(⟨0, []⟩ : CallState).k + 1 + 1,
          (⟨0, []⟩ : CallState).trace ++ List.replicate (1 + 1)
            (languageInstruction ++ writeChapterPrompt "prev".data "plot".data
              (jsonStringify (JsValue.obj [("K".data, .str "v".data)])))⟩) := by
  have hshort : ∀ j, j < 1 →
      (parseOllamaResponse (respC5 ((⟨0, []⟩ : CallState).k + j))).length < 1000 := by
    intro j hj
    interval_cases j
    decide
  have hlong : 1000 ≤
      (parseOllamaResponse (respC5 ((⟨0, []⟩ : CallState).k + 1))).length := by
    show 1000 ≤ (parseOllamaResponse (respC5 1)).length
    rw [show respC5 1 = longA from rfl]
    exact longA_long
  exact ⟨fun _ => rfl, rfl, hshort, hlong, by omega,
    writeChapter_retry (fun _ => rfl) 1 ⟨0, []⟩ 2 "prev".data "plot".data
      (JsValue.obj [("K".data, .str "v".data)]) rfl hshort hlong (by omega)⟩

theorem chaptersLoop_callError {env : Env} {resp : Nat → List Char} {j : Nat}
    {e : CallErr} (hok : ∀ k, k < j → env.responses k = .ok (resp k))
    (hlong : ∀ k, k < j → 1000 ≤ (parseOllamaResponse (resp k)).length)
    (herr : env.responses j = .error e) (fuel : Nat) (storyline : List Char)
    (v : JsValue) (hv : isNullOrUndef v = false) :
    ∀ (n i : Nat) (novel : List Char) (chapters : List (List Char))
      (objs : List (List Char × List Char)) (st : CallState),
      (∀ m, m < n → isNullOrUndef (jsIndexD v (i + m)) = false) →
      st.k ≤ j → j < st.k + n →
      chaptersLoop env (fuel + 1) storyline v n i novel chapters objs st =
        .error (.call e) := by
  intro n
  induction n with
  | zero => intro i _ _ _ st _ h1 h2; omega
  | succ n ih =>
    intro i novel chapters objs st hm hk1 hk2
    have hct : isNullOrUndef (jsIndexD v i) = false := by
      have := hm 0 (by omega)
      rwa [Nat.add_zero] at this
    rw [chaptersLoop, jsIndex_eq_ok hv]
    dsimp only
    by_cases hje : st.k = j
    · rw [writeChapter_callError (by rw [hje]; exact herr) fuel _ _ hct]
    · rw [writeChapter_ok_one (hok st.k (by omega)) (hlong st.k (by omega))
        fuel _ _ hct]
      dsimp only
      rw [objectKeys_eq_ok hct]
      dsimp only
      refine ih (i + 1) _ _ _ _ ?_ ?_ ?_
      · intro m hm2
        have := hm (m + 1) (by omega)
        rwa [show i + (m + 1) = i + 1 + m by omega] at this
      · show st.k + 1 ≤ j
        omega
      · show j < st.k + 1 + n
        omega

/-- Claim C9: a transport or service error raised by a generation call is
never retried anywhere in the core: `callOllama` rethrows it, every
pipeline stage propagates it unmodified (whichever of the run's calls
fails, the run terminates with exactly that error), and `main`'s catch
block then produces no external artifact — the manuscript file is not
written, and no cover or EPUB is produced. -/
theorem callError_propagation :
    (∀ (env : Env) (fuel : Nat) (p : List Char) (N : Nat) (ws : List Char)
      (r : RunErr),
      writeFantasyNovel env fuel p N ws ⟨0, []⟩ = .error r →
      mainActions env fuel p N ws = []) ∧
    (∀ (env : Env) (resp : Nat → List Char) (j : Nat) (e : CallErr)
      (fuel : Nat) (p : List Char) (N : Nat) (ws : List Char),
      (∀ k, k < j → env.responses k = .ok (resp k)) →
      (∀ k, k < j → 1000 ≤ (parseOllamaResponse (resp k)).length) →
      env.responses j = .error e →
      (∀ s, env.jsonParse s = none) →
      1 ≤ N → j < N + 7 →
      writeFantasyNovel env (fuel + 1) p N ws ⟨0, []⟩ = .error (.call e)) := by
  constructor
  · intro env fuel p N ws r h
    rw [mainActions, h]
  · intro env resp j e fuel p N ws hok hlong herr hparse hN hj
    by_cases hj8 : j < 8
    · interval_cases j
      · rw [writeFantasyNovel, generatePlots, callOllama_err herr]
      · rw [writeFantasyNovel, generatePlots, callOllama_one (hok 0 (by omega))]
        dsimp only
        rw [selectMostEngaging, callOllama_err herr]
      · rw [writeFantasyNovel, generatePlots, callOllama_one (hok 0 (by omega))]
        dsimp only
        rw [selectMostEngaging, callOllama_one (hok 1 (by omega))]
        dsimp only
        rw [improvePlot, callOllama_err herr]
      · rw [writeFantasyNovel, generatePlots, callOllama_one (hok 0 (by omega))]
        dsimp only
        rw [selectMostEngaging, callOllama_one (hok 1 (by omega))]
        dsimp only
        rw [improvePlot, callOllama_one (hok 2 (by omega))]
        dsimp only
        rw [getTitle, callOllama_err herr]
      · rw [writeFantasyNovel, generatePlots, callOllama_one (hok 0 (by omega))]
        dsimp only
        rw [selectMostEngaging, callOllama_one (hok 1 (by omega))]
        dsimp only
        rw [improvePlot, callOllama_one (hok 2 (by omega))]
        dsimp only
        rw [getTitle, callOllama_one (hok 3 (by omega))]
        dsimp only
        rw [generateStoryline, callOllama_err herr]
      · rw [writeFantasyNovel, generatePlots, callOllama_one (hok 0 (by omega))]
        dsimp only
        rw [selectMostEngaging, callOllama_one (hok 1 (by omega))]
        dsimp only
        rw [improvePlot, callOllama_one (hok 2 (by omega))]
        dsimp only
        rw [getTitle, callOllama_one (hok 3 (by omega))]
        dsimp only
        rw [generateStoryline, callOllama_one (hok 4 (by omega))]
        dsimp only
        rw [callOllama_err herr]
      · rw [writeFantasyNovel, generatePlots, callOllama_one (hok 0 (by omega))]
        dsimp only
        rw [selectMostEngaging, callOllama_one (hok 1 (by omega))]
        dsimp only
        rw [improvePlot, callOllama_one (hok 2 (by omega))]
        dsimp only
        rw [getTitle, callOllama_one (hok 3 (by omega))]
        dsimp only
        rw [generateStoryline, callOllama_one (hok 4 (by omega))]
        dsimp only
        rw [callOllama_one (hok 5 (by omega))]
        dsimp only
        simp only [parsedPlan, hparse]
        rw [jsIndex_eq_ok (v := JsValue.arr (fallbackPlan N)) rfl]
        dsimp only
        rw [writeFirstChapter, callOllama_err herr]
      · rw [writeFantasyNovel, generatePlots, callOllama_one (hok 0 (by omega))]
        dsimp only
        rw [selectMostEngaging, callOllama_one (hok 1 (by omega))]
        dsimp only
        rw [improvePlot, callOllama_one (hok 2 (by omega))]
        dsimp only
        rw [getTitle, callOllama_one (hok 3 (by omega))]
        dsimp only
        rw [generateStoryline, callOllama_one (hok 4 (by omega))]
        dsimp only
        rw [callOllama_one (hok 5 (by omega))]
        dsimp only
        simp only [parsedPlan, hparse]
        rw [jsIndex_eq_ok (v := JsValue.arr (fallbackPlan N)) rfl]
        dsimp only
        rw [writeFirstChapter, callOllama_one (hok 6 (by omega))]
        dsimp only
        rw [callOllama_err herr]
    · push_neg at hj8
      rw [writeFantasyNovel, generatePlots, callOllama_one (hok 0 (by omega))]
      dsimp only
      rw [selectMostEngaging, callOllama_one (hok 1 (by omega))]
      dsimp only
      rw [improvePlot, callOllama_one (hok 2 (by omega))]
      dsimp only
      rw [getTitle, callOllama_one (hok 3 (by omega))]
      dsimp only
      rw [generateStoryline, callOllama_one (hok 4 (by omega))]
      dsimp only
      rw [callOllama_one (hok 5 (by omega))]
      dsimp only
      simp only [parsedPlan, hparse]
      rw [jsIndex_eq_ok (v := JsValue.arr (fallbackPlan N)) rfl]
      dsimp only
      rw [writeFirstChapter, callOllama_one (hok 6 (by omega))]
      dsimp only
      rw [callOllama_one (hok 7 (by omega))]
      dsimp only
      rw [objectKeys_eq_ok (fallbackPlan_entry_ok (show 0 < N by omega))]
      dsimp only
      rw [chaptersLoop_callError hok hlong herr fuel _
        (JsValue.arr (fallbackPlan N)) rfl (N - 1) 1 _ _ _ _
        (fun m hm => fallbackPlan_entry_ok (by omega))
        (by show 0 + 1 + 1 + 1 + 1 + 1 + 1 + 1 + 1 ≤ j; omega)
        (by show j < 0 + 1 + 1 + 1 + 1 + 1 + 1 + 1 + 1 + (N - 1); omega)]

def envC9 : Env := ⟨fun k => if k = 3 then .error .transport else .ok longA,
  fun _ => none⟩

/-- Claim C9 witness: the fourth call (the title request) fails with a
transport error; the run aborts with that very error and no artifact is
produced. -/
theorem callError_propagation_witness :
    writeFantasyNovel envC9 (0 + 1) "p".data 1 "ws".data ⟨0, []⟩ =
      .error (.call .transport) ∧
    mainActions envC9 (0 + 1) "p".data 1 "ws".data = [] := by
  have h2 := callError_propagation.2 envC9 (fun _ => longA) 3 .transport 0
    "p".data 1 "ws".data (fun k hk => by interval_cases k <;> rfl)
    (fun k _ => longA_long) rfl (fun _ => rfl) (by omega) (by omega)
  exact ⟨h2, callError_propagation.1 envC9 (0 + 1) "p".data 1 "ws".data _ h2⟩

end OllamaAuthor
